import Mathlib

/-!
Verification of the multi-snake AI game core
(`src/entities/grid.py`, `src/entities/snake.py`, `src/entities/food.py`,
`src/ai/ai_snake.py`, `src/ai/pathfinding.py`, `src/ai/multi_snake.py`).

The Python code is shallowly embedded: Python ints become `Int`, floats
that only ever hold exactly representable quantities become `ℚ`, Python
sets become `Finset`, insertion-ordered dicts become association lists,
and the ambient randomness (`random.random`, `random.choice`, set
iteration order) is passed in explicitly as oracle parameters, so every
source of nondeterminism is universally quantified in the theorems.
-/

set_option maxHeartbeats 1000000

namespace SnakeGame

/-- Coordinate on the square grid (`grid.py`, class `SquareCoord`):
an immutable pair of Python ints with structural equality. -/
structure SquareCoord where
  x : Int
  y : Int
  deriving DecidableEq, Repr

/-- Square grid (`grid.py`, class `Grid`): width, height and the set of
occupied cells (`_occupied_cells`, a Python set, modelled as a `Finset`). -/
structure Grid where
  width : Int
  height : Int
  occupied : Finset SquareCoord
  deriving DecidableEq

/-- Python `Grid.is_valid_position`: bounds check only. -/
def Grid.is_valid_position (g : Grid) (c : SquareCoord) : Bool :=
  decide (0 ≤ c.x) && decide (c.x < g.width) && decide (0 ≤ c.y) && decide (c.y < g.height)

/-- Python `Grid.is_occupied`. -/
def Grid.is_occupied (g : Grid) (c : SquareCoord) : Bool :=
  decide (c ∈ g.occupied)

/-- Python `Grid.occupy`. -/
def Grid.occupy (g : Grid) (c : SquareCoord) : Grid :=
  { g with occupied := insert c g.occupied }

/-- Python `Grid.vacate` (`set.discard`). -/
def Grid.vacate (g : Grid) (c : SquareCoord) : Grid :=
  { g with occupied := g.occupied.erase c }

/-- Python `Grid.get_neighbors`: the four axis neighbours in the fixed
source order up, down, left, right, filtered to in-bounds cells. -/
def Grid.get_neighbors (g : Grid) (c : SquareCoord) : List SquareCoord :=
  [((0 : Int), (-1 : Int)), (0, 1), (-1, 0), (1, 0)].filterMap fun d =>
    let n : SquareCoord := ⟨c.x + d.1, c.y + d.2⟩
    if g.is_valid_position n then some n else none

/-- Python `Grid.get_random_empty_cell`. `random.choice` on the non-empty
list of empty cells is modelled by the oracle `pick`; the guard clauses are
transcribed verbatim (note the first guard compares the raw size of the
occupied set, which may contain out-of-bounds cells, with `width*height`). -/
def Grid.get_random_empty_cell (g : Grid) (pick : List SquareCoord → SquareCoord) :
    Option SquareCoord :=
  if (g.occupied.card : Int) ≥ g.width * g.height then none
  else
    let empty_cells := (List.range g.width.toNat).flatMap fun x =>
      (List.range g.height.toNat).filterMap fun y =>
        let c : SquareCoord := ⟨(x : Int), (y : Int)⟩
        if g.is_occupied c then none else some c
    if empty_cells.isEmpty then none else some (pick empty_cells)

/-- Movement directions (`snake.py`, enum `Direction`). -/
inductive Direction where
  | up
  | down
  | left
  | right
  deriving DecidableEq, Repr

/-- Python `Direction.get_dx_dy` (the enum values). -/
def Direction.get_dx_dy : Direction → Int × Int
  | .up => (0, -1)
  | .down => (0, 1)
  | .left => (-1, 0)
  | .right => (1, 0)

/-- The exact 180-degree reversal of a direction (spec-side helper used to
state the reversal-guard claim). -/
def Direction.opposite : Direction → Direction
  | .up => .down
  | .down => .up
  | .left => .right
  | .right => .left

/-- Snake entity (`snake.py`, class `Snake`). `snake_id` is assigned after
construction in the Python code (`snake.snake_id = snake_id`), so it is a
plain field here, and `is_ai` records whether the object was constructed as
the `AISnake` subclass (Python's `isinstance(snake, AISnake)`). The
AI-only numeric attributes of `AISnake` are modelled by `AISnakeParams`
below; they never influence the fields of this structure except through
`set_direction` calls, which the game-level model takes as an oracle. -/
structure Snake where
  segments : List SquareCoord
  direction : Direction
  next_direction : Direction
  growth_pending : Int
  skin_id : String
  snake_id : String
  is_ai : Bool
  deriving DecidableEq, Repr

/-- Python `Snake.__init__` together with `_create_initial_segments`:
segments from head to tail, stepping backwards from the start position. -/
def Snake.create (start : SquareCoord) (dir : Direction) (len : Nat) : Snake :=
  { segments := (List.range len).map fun i =>
      let d := dir.get_dx_dy
      ⟨start.x - d.1 * (i : Int), start.y - d.2 * (i : Int)⟩
    direction := dir
    next_direction := dir
    growth_pending := 0
    skin_id := "classic"
    snake_id := ""
    is_ai := false }

/-- Python `Snake.get_head` (None on an empty snake). -/
def Snake.get_head (s : Snake) : Option SquareCoord :=
  s.segments.head?

/-- Python `Snake.set_direction`: rejects an exact 180-degree turn by
testing `dx + new_dx == 0 and dy + new_dy == 0` against the current
direction; otherwise stores the pending direction. Returns the Python
return value together with the updated snake. -/
def Snake.set_direction (s : Snake) (new_direction : Direction) : Bool × Snake :=
  let d := s.direction.get_dx_dy
  let n := new_direction.get_dx_dy
  if d.1 + n.1 = 0 ∧ d.2 + n.2 = 0 then (false, s)
  else (true, { s with next_direction := new_direction })

/-- Python `Snake.move`: commit the pending direction, push the new head,
and pop the tail unless growth is pending. Returns the vacated tail cell
(or `none` when growing or when the snake is empty) with the moved snake. -/
def Snake.move (s : Snake) : Option SquareCoord × Snake :=
  match s.segments with
  | [] => (none, s)
  | head :: rest =>
    let dir := s.next_direction
    let d := dir.get_dx_dy
    let new_head : SquareCoord := ⟨head.x + d.1, head.y + d.2⟩
    let segs := new_head :: head :: rest
    if s.growth_pending > 0 then
      (none, { s with direction := dir, segments := segs,
                      growth_pending := s.growth_pending - 1 })
    else
      (segs.getLast?, { s with direction := dir, segments := segs.dropLast })

/-- Python `Snake.grow`. -/
def Snake.grow (s : Snake) (amount : Int) : Snake :=
  { s with growth_pending := s.growth_pending + amount }

/-- Python `Snake.check_self_collision`: snakes shorter than 4 segments
cannot self-collide; otherwise test whether the head occurs in the body. -/
def Snake.check_self_collision (s : Snake) : Bool :=
  if s.segments.length < 4 then false
  else
    match s.segments with
    | [] => false
    | h :: t => decide (h ∈ t)

/-- Python `Snake.occupies_position`. -/
def Snake.occupies_position (s : Snake) (c : SquareCoord) : Bool :=
  decide (c ∈ s.segments)

/-- Python `Snake.get_segments` (the copy is irrelevant in a pure model). -/
def Snake.get_segments (s : Snake) : List SquareCoord :=
  s.segments

/-- Food entity (`food.py`, class `Food`); the visual-effects list is
omitted as pure presentation state. -/
structure Food where
  position : SquareCoord
  food_type : String
  point_value : Int
  deriving DecidableEq, Repr

/-- Python `Food.spawn_food` with the default type and point value used by
the game (`spawn_food(self.grid)`). -/
def Food.spawn_food (g : Grid) (pick : List SquareCoord → SquareCoord) : Option Food :=
  (g.get_random_empty_cell pick).map fun p => ⟨p, "apple", 10⟩

/-- The numeric difficulty state of `ai_snake.py`, class `AISnake`:
the fields `difficulty`, `decision_delay` and `mistake_chance`. Python
floats are embedded as `ℚ` (all values involved are exact). The behaviour
tree, pathfinder handle and timing caches are omitted: they do not touch
these three fields. -/
structure AISnakeParams where
  difficulty : ℚ
  decision_delay : ℚ
  mistake_chance : ℚ
  deriving DecidableEq, Repr

/-- The assignments performed by `AISnake.__init__` on the three numeric
fields: `difficulty = max(0.1, min(1.0, difficulty))`,
`decision_delay = 0.1`, and `mistake_chance = 1.0 - difficulty` where
`difficulty` on the right is the raw constructor argument. -/
def AISnakeParams.init (difficulty : ℚ) : AISnakeParams :=
  { difficulty := max (1/10) (min 1 difficulty)
    decision_delay := 1/10
    mistake_chance := 1 - difficulty }

/-- Python `AISnake.set_difficulty`: re-clamp and derive both values from
the clamped difficulty (`0.2 - difficulty * 0.15`). -/
def AISnakeParams.set_difficulty (p : AISnakeParams) (d : ℚ) : AISnakeParams :=
  let difficulty := max (1/10) (min 1 d)
  { p with difficulty := difficulty
           mistake_chance := 1 - difficulty
           decision_delay := 1/5 - difficulty * (3/20) }

/-- The loop skeleton `for dx in range(-1, 2): for dy in range(-1, 2)` of
`AISnake._get_danger_positions`. -/
def deltas3 : List (Int × Int) :=
  ([-1, 0, 1] : List Int).flatMap fun dx => ([-1, 0, 1] : List Int).map fun dy => (dx, dy)

/-- Python `AISnake._get_danger_positions`: for every obstacle, every cell
of its 3x3 neighbourhood that is not itself an obstacle is appended. The
Python obstacle set is iterated; the model takes the iteration order as a
list and tests membership against the same list. No grid-bounds filtering
is performed by the source. -/
def AISnake._get_danger_positions (obstacles : List SquareCoord) : List SquareCoord :=
  obstacles.flatMap fun o =>
    (deltas3.map fun d => (⟨o.x + d.1, o.y + d.2⟩ : SquareCoord)).filter
      fun p => decide (p ∉ obstacles)

/-- Game modes (`multi_snake.py`, enum `GameMode`). -/
inductive GameMode where
  | survival
  | score_race
  | free_for_all
  | cooperative
  deriving DecidableEq, Repr

/-- Collision kinds (`multi_snake.py`, enum `CollisionType`). -/
inductive CollisionType where
  | wall
  | self
  | snake
  | food
  deriving DecidableEq, Repr

/-- Collision event (`multi_snake.py`, class `CollisionEvent`). The
`timestamp` and the derived `name` string are wall-clock data
(`time.time()`) and are omitted from the model. -/
structure CollisionEvent where
  snake_id : String
  collision_type : CollisionType
  position : SquareCoord
  other_snake_id : Option String
  deriving DecidableEq, Repr

/-- Lookup in an insertion-ordered Python dict modelled as an association
list (first match wins; our operations keep keys unique). -/
def dictLookup {α : Type} (l : List (String × α)) (k : String) : Option α :=
  (l.find? fun kv => kv.1 == k).map Prod.snd

/-- Python `k in d` on a dict. -/
def dictContains {α : Type} (l : List (String × α)) (k : String) : Bool :=
  l.any fun kv => kv.1 == k

/-- Python `d[k] = v`: replace the value in place when the key is present
(keeping its position, as an insertion-ordered dict does), append
otherwise. -/
def dictSet {α : Type} (l : List (String × α)) (k : String) (v : α) : List (String × α) :=
  match l with
  | [] => [(k, v)]
  | kv :: rest => if kv.1 == k then (k, v) :: rest else kv :: dictSet rest k v

/-- Multi-snake game state (`multi_snake.py`, class `MultiSnakeGame`).
Python dicts (`snakes`, `scores`) are insertion-ordered association
lists; Python sets (`active_snakes`, `eliminated_snakes`) are
`Finset String`. `pathfinder`, `respawn_enabled` and `respawn_delay`
are omitted: the first is a handle to the grid already stored here and
the other two are never read by any code path. -/
structure MultiSnakeGame where
  grid : Grid
  game_mode : GameMode
  snakes : List (String × Snake)
  food_items : List Food
  collision_events : List CollisionEvent
  game_time : ℚ
  time_limit : Option ℚ
  scores : List (String × Int)
  active_snakes : Finset String
  eliminated_snakes : Finset String
  max_food_items : Int
  food_spawn_rate : ℚ
  deriving DecidableEq

/-- Python `MultiSnakeGame.__init__`. -/
def MultiSnakeGame.init (grid : Grid) (game_mode : GameMode) : MultiSnakeGame :=
  { grid := grid
    game_mode := game_mode
    snakes := []
    food_items := []
    collision_events := []
    game_time := 0
    time_limit := none
    scores := []
    active_snakes := ∅
    eliminated_snakes := ∅
    max_food_items := 5
    food_spawn_rate := 1/10 }

/-- Python `MultiSnakeGame.add_player_snake`: reject a duplicate id or an
out-of-bounds start (occupancy is not consulted), otherwise install the
snake, a zero score, and mark it active. -/
def MultiSnakeGame.add_player_snake (g : MultiSnakeGame) (snake_id : String)
    (start_position : SquareCoord) (start_direction : Direction) :
    Bool × MultiSnakeGame :=
  if dictContains g.snakes snake_id then (false, g)
  else if ¬ g.grid.is_valid_position start_position then (false, g)
  else
    let snake := { Snake.create start_position start_direction 3 with snake_id := snake_id }
    (true, { g with snakes := g.snakes ++ [(snake_id, snake)]
                    scores := g.scores ++ [(snake_id, 0)]
                    active_snakes := insert snake_id g.active_snakes })

/-- Python `MultiSnakeGame.add_ai_snake`: same guards as
`add_player_snake`; the `AISnake` is constructed with the default start
direction RIGHT, and its AI-only numeric attributes live in
`AISnakeParams`. -/
def MultiSnakeGame.add_ai_snake (g : MultiSnakeGame) (snake_id : String)
    (start_position : SquareCoord) : Bool × MultiSnakeGame :=
  if dictContains g.snakes snake_id then (false, g)
  else if ¬ g.grid.is_valid_position start_position then (false, g)
  else
    let snake := { Snake.create start_position .right 3 with
                     snake_id := snake_id, is_ai := true }
    (true, { g with snakes := g.snakes ++ [(snake_id, snake)]
                    scores := g.scores ++ [(snake_id, 0)]
                    active_snakes := insert snake_id g.active_snakes })

/-- Python `MultiSnakeGame.remove_snake`: a missing id returns false;
otherwise the id is discarded from the active set and added to the
eliminated set. The `snakes` dict itself keeps the entry. -/
def MultiSnakeGame.remove_snake (g : MultiSnakeGame) (snake_id : String) :
    Bool × MultiSnakeGame :=
  if ¬ dictContains g.snakes snake_id then (false, g)
  else
    (true, { g with active_snakes := g.active_snakes.erase snake_id
                    eliminated_snakes := insert snake_id g.eliminated_snakes })

/-- Python `MultiSnakeGame._handle_snake_elimination`: move the id out of
the active set into the eliminated set and vacate the snake's segments
from the grid. The Python code indexes `self.snakes[snake_id]`
unconditionally; every caller passes a present key, so the `none` branch
(which would raise `KeyError`) is unreachable and modelled as performing
only the set updates. -/
def MultiSnakeGame._handle_snake_elimination (g : MultiSnakeGame) (snake_id : String) :
    MultiSnakeGame :=
  let g1 := { g with active_snakes := g.active_snakes.erase snake_id
                     eliminated_snakes := insert snake_id g.eliminated_snakes }
  match dictLookup g.snakes snake_id with
  | some sn => { g1 with grid := sn.get_segments.foldl (fun gr seg => gr.vacate seg) g1.grid }
  | none => g1

/-- Python `MultiSnakeGame._handle_snake_collision`: SURVIVAL eliminates
both snakes, FREE_FOR_ALL eliminates the snake whose head is at the
collision cell, COOPERATIVE does nothing — and SCORE_RACE matches no
branch of the if/elif chain, so it also does nothing. The `none` branch
mirrors an unreachable `KeyError`. -/
def MultiSnakeGame._handle_snake_collision (g : MultiSnakeGame)
    (snake1_id snake2_id : String) (collision_pos : SquareCoord) : MultiSnakeGame :=
  match g.game_mode with
  | .survival => (g._handle_snake_elimination snake1_id)._handle_snake_elimination snake2_id
  | .free_for_all =>
    match dictLookup g.snakes snake1_id with
    | some sn =>
      if sn.get_head = some collision_pos then g._handle_snake_elimination snake1_id else g
    | none => g
  | .cooperative => g
  | .score_race => g

/-- The body of the snake-vs-snake scan inside `_handle_snake_movement`:
every other snake whose body occupies the moved head yields a SNAKE event
and a mode-specific resolution. -/
def MultiSnakeGame.collideStep (snake_id : String) (head : SquareCoord)
    (acc : List CollisionEvent × MultiSnakeGame) (kv : String × Snake) :
    List CollisionEvent × MultiSnakeGame :=
  if kv.1 ≠ snake_id ∧ kv.2.occupies_position head then
    (acc.1 ++ [⟨snake_id, .snake, head, some kv.1⟩],
     acc.2._handle_snake_collision snake_id kv.1 head)
  else acc

/-- Python `MultiSnakeGame._handle_snake_movement`: wall collision and
self collision eliminate and return early (skipping the grid-occupancy
update); otherwise every other snake occupying the new head cell yields a
SNAKE event and a mode-specific resolution, after which the vacated tail
is freed and the head cell occupied. -/
def MultiSnakeGame._handle_snake_movement (g : MultiSnakeGame) (snake_id : String)
    (snake : Snake) (tail_position : Option SquareCoord) :
    List CollisionEvent × MultiSnakeGame :=
  match snake.get_head with
  | none => ([], g)
  | some head =>
    if ¬ g.grid.is_valid_position head then
      ([⟨snake_id, .wall, head, none⟩], g._handle_snake_elimination snake_id)
    else if snake.check_self_collision then
      ([⟨snake_id, .self, head, none⟩], g._handle_snake_elimination snake_id)
    else
      let step := g.snakes.foldl (MultiSnakeGame.collideStep snake_id head) ([], g)
      let g2 := step.2
      let grid1 := match tail_position with
        | some t => g2.grid.vacate t
        | none => g2.grid
      (step.1, { g2 with grid := grid1.occupy head })

/-- The body of the `for food in self.food_items` loop of
`_check_food_collisions`: the first snake (in dict order) that is active
and whose head is at the food's position grows, scores the food's points
and yields a FOOD event; the food is collected for removal. The `scores`
dict always holds every snake id, so the `getD 0` default is
unreachable. -/
def MultiSnakeGame.foodStep (acc : List CollisionEvent × List Food × MultiSnakeGame)
    (food : Food) : List CollisionEvent × List Food × MultiSnakeGame :=
  let gs := acc.2.2
  match gs.snakes.find? (fun kv =>
      decide (kv.1 ∈ gs.active_snakes) && decide (kv.2.get_head = some food.position)) with
  | none => acc
  | some kv =>
    let gs1 := { gs with
      snakes := dictSet gs.snakes kv.1 (kv.2.grow 1)
      scores := dictSet gs.scores kv.1 ((dictLookup gs.scores kv.1).getD 0 + food.point_value) }
    (acc.1 ++ [⟨kv.1, .food, food.position, none⟩], acc.2.1 ++ [food], gs1)

/-- The body of the `for food in food_to_remove` loop. -/
def MultiSnakeGame.foodRemove (gs : MultiSnakeGame) (food : Food) : MultiSnakeGame :=
  { gs with food_items := gs.food_items.erase food
            grid := gs.grid.vacate food.position }

def MultiSnakeGame._check_food_collisions (g : MultiSnakeGame) :
    List CollisionEvent × MultiSnakeGame :=
  let r := g.food_items.foldl MultiSnakeGame.foodStep ([], [], g)
  (r.1, r.2.1.foldl MultiSnakeGame.foodRemove r.2.2)

/-- Python `MultiSnakeGame._update_food`: keep drawing
`random.random() < food_spawn_rate` and spawning while the food count is
below the maximum. The random stream is the oracle `rands` consumed at
offset `k`, and a fuel argument makes the (possibly nonterminating) while
loop total: `none` means the loop has not finished within `fuel`
iterations. On success the state and the next stream offset are
returned. -/
def MultiSnakeGame._update_food : Nat → (Nat → ℚ) → (List SquareCoord → SquareCoord) →
    Nat → MultiSnakeGame → Option (MultiSnakeGame × Nat)
  | 0, _, _, _, _ => none
  | fuel+1, rands, pick, k, g =>
    if (g.food_items.length : Int) < g.max_food_items then
      if rands k < g.food_spawn_rate then
        match Food.spawn_food g.grid pick with
        | some f =>
          MultiSnakeGame._update_food fuel rands pick (k+1)
            { g with food_items := g.food_items ++ [f], grid := g.grid.occupy f.position }
        | none => MultiSnakeGame._update_food fuel rands pick (k+1) g
      else MultiSnakeGame._update_food fuel rands pick (k+1) g
    else some (g, k)

/-- The AI-decision pass of `update`: every active AI snake runs
`update_ai`, whose only effect on the modelled snake fields is a
(possibly empty) sequence of `set_direction` calls; the net effect is at
most one final accepted request, applied through `set_direction` itself,
so the `decisions` oracle reaches exactly the Python-reachable pending
directions. -/
def MultiSnakeGame.aiPass (decisions : String → Option Direction)
    (g0 : MultiSnakeGame) : MultiSnakeGame :=
  { g0 with snakes := g0.snakes.map fun kv =>
      if (decide (kv.1 ∈ g0.active_snakes) && kv.2.is_ai : Bool) then
        (match decisions kv.1 with
         | some d => (kv.1, (kv.2.set_direction d).2)
         | none => kv)
      else kv }

/-- The body of the movement loop of `update`: fetch the snake (present
for every active id), move it in place, then run collision handling with
the vacated tail. -/
def MultiSnakeGame.moveStep (acc : List CollisionEvent × MultiSnakeGame) (sid : String) :
    List CollisionEvent × MultiSnakeGame :=
  match dictLookup acc.2.snakes sid with
  | none => acc
  | some sn =>
    let mv := sn.move
    let gs := { acc.2 with snakes := dictSet acc.2.snakes sid mv.2 }
    let r := gs._handle_snake_movement sid mv.2 mv.1
    (acc.1 ++ r.1, r.2)

/-- Python `MultiSnakeGame.update`. Oracles: `decisions` models the net
effect of `update_ai` on each active AI snake (a possibly-empty sequence
of `set_direction` calls collapses to at most one final request, applied
through `set_direction` itself, so the oracle can produce exactly the
reachable pending directions and no others); `order` is the snapshot
`list(self.active_snakes)` of the Python set, whose iteration order is
taken as an input (a missing id is skipped, which is unreachable because
all active ids are dict keys); `rands`/`pick` drive `_update_food`.
`_check_game_conditions` mutates nothing and is omitted. The result is
`none` only when `_update_food` exceeds its fuel, i.e. when the Python
loop would still be running. -/
def MultiSnakeGame.update (g : MultiSnakeGame) (dt : ℚ)
    (decisions : String → Option Direction) (order : List String)
    (foodFuel : Nat) (rands : Nat → ℚ) (pick : List SquareCoord → SquareCoord) :
    Option (List CollisionEvent × MultiSnakeGame) :=
  let g1 := MultiSnakeGame.aiPass decisions { g with game_time := g.game_time + dt }
  let step := order.foldl MultiSnakeGame.moveStep ([], g1)
  match step.2._update_food foodFuel rands pick 0 with
  | none => none
  | some (g2, _) =>
    let fc := g2._check_food_collisions
    let events := step.1 ++ fc.1
    some (events, { fc.2 with collision_events := fc.2.collision_events ++ events })

/-- One external operation on a game, as quantified by the invariant
claims: adding a player or AI snake, removing a snake, or one
`update(dt)` tick together with all the oracle data a tick consumes. -/
inductive GameOp where
  | addPlayer (id : String) (pos : SquareCoord) (dir : Direction)
  | addAI (id : String) (pos : SquareCoord)
  | remove (id : String)
  | tick (dt : ℚ) (decisions : String → Option Direction) (order : List String)
         (foodFuel : Nat) (rands : Nat → ℚ) (pick : List SquareCoord → SquareCoord)

/-- Apply one operation; `none` only when a tick's food loop ran out of
fuel (it would still be running in Python). -/
def applyOp (g : MultiSnakeGame) : GameOp → Option MultiSnakeGame
  | .addPlayer id pos dir => some (g.add_player_snake id pos dir).2
  | .addAI id pos => some (g.add_ai_snake id pos).2
  | .remove id => some (g.remove_snake id).2
  | .tick dt dec ord fuel rands pick => (g.update dt dec ord fuel rands pick).map Prod.snd

/-- Run a sequence of operations. -/
def runOps (g : MultiSnakeGame) : List GameOp → Option MultiSnakeGame
  | [] => some g
  | op :: rest => (applyOp g op).bind fun g1 => runOps g1 rest

/-- Invariant of the multi-snake game (stated by the spec's data model):
active and eliminated ids are disjoint and both sets only hold ids that
are keys of the snakes dict. -/
def GoodState (g : MultiSnakeGame) : Prop :=
  Disjoint g.active_snakes g.eliminated_snakes ∧
  (∀ id ∈ g.active_snakes, dictContains g.snakes id = true) ∧
  (∀ id ∈ g.eliminated_snakes, dictContains g.snakes id = true)

/-- How any piece of the game code may transform the state: the invariant
is preserved, the eliminated set only grows, and dict keys are never
deleted. -/
def StepOk (g g' : MultiSnakeGame) : Prop :=
  (GoodState g → GoodState g') ∧
  g.eliminated_snakes ⊆ g'.eliminated_snakes ∧
  (∀ x, dictContains g.snakes x = true → dictContains g'.snakes x = true)

/-- Search node (`pathfinding.py`, class `PathNode`). `parent` is a Python
object reference; since nodes are mutated in place while aliased from the
heap, the dict and the parent pointers, the model keeps all nodes in a
store (list indexed by creation order) and represents every reference as
an index into it. -/
structure PathNode where
  position : SquareCoord
  g_cost : Int
  h_cost : Int
  f_cost : Int
  parent : Option Nat
  deriving DecidableEq, Repr

instance : Inhabited PathNode := ⟨⟨⟨0, 0⟩, 0, 0, 0, none⟩⟩

/-- Python `PathNode.__lt__`: comparison is on `f_cost` only, reading the
current (possibly mutated) field values through the store. -/
def nodeLt (store : List PathNode) (a b : Nat) : Bool :=
  decide ((store.getD a default).f_cost < (store.getD b default).f_cost)

/-- CPython `heapq._siftdown` (the loop with `newitem` held in a local):
shift larger parents down and drop `newitem` into place. The recursion is
on an explicit counter so that the kernel can evaluate it; since `pos`
strictly decreases each iteration, a counter starting at `pos` can only
run out when `pos = 0`, where the loop guard `startpos < pos` fails
anyway — both branches then return `heap.set pos newitem`, so the
counter version equals the unbounded loop. -/
def heapSiftdownF (store : List PathNode) :
    Nat → List Nat → Nat → Nat → Nat → List Nat
  | 0, heap, _, pos, newitem => heap.set pos newitem
  | fuel+1, heap, startpos, pos, newitem =>
    if startpos < pos then
      let parentpos := (pos - 1) / 2
      let parent := heap.getD parentpos 0
      if nodeLt store newitem parent then
        heapSiftdownF store fuel (heap.set pos parent) startpos parentpos newitem
      else heap.set pos newitem
    else heap.set pos newitem

/-- CPython `heapq._siftdown`: the counter `pos` dominates the number of
iterations. -/
def heapSiftdown (store : List PathNode) (heap : List Nat)
    (startpos pos newitem : Nat) : List Nat :=
  heapSiftdownF store pos heap startpos pos newitem

/-- CPython `heapq._siftup`'s main loop: bubble the smaller child up
until a leaf is reached. As with `heapSiftdownF`, the counter only runs
out when `endpos ≤ pos`, where the loop guard `childpos < endpos` fails
anyway — both branches then agree, so this equals the unbounded loop. -/
def heapSiftupLoopF (store : List PathNode) :
    Nat → List Nat → Nat → Nat → Nat → Nat → List Nat
  | 0, heap, _, startpos, pos, newitem =>
    heapSiftdown store (heap.set pos newitem) startpos pos newitem
  | fuel+1, heap, endpos, startpos, pos, newitem =>
    let childpos := 2 * pos + 1
    if childpos < endpos then
      let rightpos := childpos + 1
      let childpos2 :=
        if rightpos < endpos ∧ ¬ nodeLt store (heap.getD childpos 0) (heap.getD rightpos 0)
        then rightpos else childpos
      heapSiftupLoopF store fuel (heap.set pos (heap.getD childpos2 0)) endpos startpos
        childpos2 newitem
    else heapSiftdown store (heap.set pos newitem) startpos pos newitem

/-- CPython `heapq._siftup`: `endpos`, `startpos` and `newitem` are read at
entry, then the loop runs and finishes with a `_siftdown`; the counter
`endpos - pos` dominates the number of iterations. -/
def heapSiftup (store : List PathNode) (heap : List Nat) (pos : Nat) : List Nat :=
  heapSiftupLoopF store (heap.length - pos) heap heap.length pos pos (heap.getD pos 0)

/-- CPython `heapq.heappush`: append, then sift down from the new slot. -/
def heappush (store : List PathNode) (heap : List Nat) (item : Nat) : List Nat :=
  let h1 := heap ++ [item]
  heapSiftdown store h1 0 heap.length item

/-- CPython `heapq.heappop`: pop the last element; if the heap is still
non-empty, hand back the root and sift the last element down from the
root. `none` mirrors the `IndexError` on an empty heap, which the A* loop
guards against. -/
def heappop (store : List PathNode) (heap : List Nat) : Option (Nat × List Nat) :=
  match heap.getLast? with
  | none => none
  | some lastelt =>
    let h1 := heap.dropLast
    if h1.isEmpty then some (lastelt, h1)
    else
      let returnitem := h1.getD 0 0
      some (returnitem, heapSiftup store (h1.set 0 lastelt) 0)

/-- Python `PathFinder._heuristic`: Manhattan distance. -/
def PathFinder._heuristic (pos1 pos2 : SquareCoord) : Int :=
  |pos1.x - pos2.x| + |pos1.y - pos2.y|

/-- Python dict `all_nodes` lookup (`position -> node`). -/
def lookupPos (l : List (SquareCoord × Nat)) (p : SquareCoord) : Option Nat :=
  (l.find? fun kv => kv.1 == p).map Prod.snd

/-- The state of one `find_path_astar` run: the node store, the `heapq`
list of node references, the closed set, and the `all_nodes` dict. -/
structure AStarState where
  store : List PathNode
  heap : List Nat
  closed : Finset SquareCoord
  all_nodes : List (SquareCoord × Nat)

/-- The body of the `for neighbor in neighbors` loop of
`find_path_astar`: skip closed or obstructed cells; otherwise either
create, register and push a new node, or decrease an existing node's
`g_cost`/`f_cost`, repoint its parent, and push it again (the same node is
now referenced twice from the heap, exactly as in the source). -/
def expandNeighbor (obstacles : Finset SquareCoord) (goal : SquareCoord) (cid : Nat)
    (st : AStarState) (q : SquareCoord) : AStarState :=
  if q ∈ st.closed ∨ q ∈ obstacles then st
  else
    let cur := st.store.getD cid default
    let g := cur.g_cost + 1
    let h := PathFinder._heuristic q goal
    match lookupPos st.all_nodes q with
    | none =>
      let nid := st.store.length
      let store1 := st.store ++ [(⟨q, g, h, g + h, some cid⟩ : PathNode)]
      { store := store1
        heap := heappush store1 st.heap nid
        closed := st.closed
        all_nodes := st.all_nodes ++ [(q, nid)] }
    | some nid =>
      let nnode := st.store.getD nid default
      if g < nnode.g_cost then
        let store1 := st.store.set nid { nnode with g_cost := g, f_cost := g + h, parent := some cid }
        { st with store := store1, heap := heappush store1 st.heap nid }
      else st

/-- Python `PathFinder._reconstruct_path` before the final `reversed`:
follow parent references, collecting positions goal-first. The fuel makes
the pointer chase total; `none` (cycle longer than the fuel) is proved
unreachable. -/
def reconstructAux (store : List PathNode) : Nat → Nat → Option (List SquareCoord)
  | 0, _ => none
  | fuel+1, i =>
    let n := store.getD i default
    match n.parent with
    | none => some [n.position]
    | some j => (reconstructAux store fuel j).map fun rest => n.position :: rest

/-- Python `PathFinder._reconstruct_path`. -/
def PathFinder._reconstruct_path (store : List PathNode) (fuel i : Nat) :
    Option (List SquareCoord) :=
  (reconstructAux store fuel i).map List.reverse

/-- The `while open_set` loop of `find_path_astar`. The outer `Option` is
loop fuel (`none` = the loop or the reconstruction has not finished, i.e.
Python would still be running); the inner `Option` is the Python return
value. -/
def astarLoop (grid : Grid) (obstacles : Finset SquareCoord) (goal : SquareCoord) :
    Nat → AStarState → Option (Option (List SquareCoord))
  | 0, _ => none
  | fuel+1, st =>
    match heappop st.store st.heap with
    | none => some none
    | some (cid, heap1) =>
      let cur := st.store.getD cid default
      if cur.position = goal then
        match PathFinder._reconstruct_path st.store (st.store.length + 1) cid with
        | some p => some (some p)
        | none => none
      else
        let st1 : AStarState := { st with heap := heap1, closed := insert cur.position st.closed }
        let st2 := (grid.get_neighbors cur.position).foldl (expandNeighbor obstacles goal cid) st1
        astarLoop grid obstacles goal fuel st2

/-- Python `PathFinder.find_path_astar` over a square grid: the argument
guards, then the A* main loop starting from a single start node with
`g = 0` and the Manhattan heuristic. -/
def PathFinder.find_path_astar (grid : Grid) (start goal : SquareCoord)
    (obstacles : Finset SquareCoord) (fuel : Nat) : Option (Option (List SquareCoord)) :=
  if ¬ grid.is_valid_position start ∨ ¬ grid.is_valid_position goal then some none
  else if start ∈ obstacles ∨ goal ∈ obstacles then some none
  else
    let h0 := PathFinder._heuristic start goal
    let start_node : PathNode := ⟨start, 0, h0, 0 + h0, none⟩
    let st : AStarState :=
      { store := [start_node]
        heap := heappush [start_node] [] 0
        closed := ∅
        all_nodes := [(start, 0)] }
    astarLoop grid obstacles goal fuel st

/-- Spec-side judgement: a cell usable by a path, i.e. in-bounds and not
an obstacle (the filtered graph of the claim). -/
def validCell (grid : Grid) (obstacles : Finset SquareCoord) (c : SquareCoord) : Bool :=
  grid.is_valid_position c && decide (c ∉ obstacles)

/-- Spec-side judgement: consecutive cells of the list are grid-adjacent
(Manhattan distance exactly 1). -/
def stepsOk : List SquareCoord → Bool
  | [] => true
  | [_] => true
  | a :: b :: rest => decide (PathFinder._heuristic a b = 1) && stepsOk (b :: rest)

/-- Spec-side judgement: `p` is a path of the filtered graph from `s` to
`g` inclusive. -/
def isPath (grid : Grid) (obstacles : Finset SquareCoord) (p : List SquareCoord)
    (s g : SquareCoord) : Bool :=
  (match p with | [] => false | c :: _ => c == s) &&
    (p.getLast? == some g) && p.all (validCell grid obstacles) && stepsOk p

/-- Spec-side judgement: `g` is reachable from `s` through in-bounds
non-obstacle cells. -/
def ReachablePath (grid : Grid) (obstacles : Finset SquareCoord) (s g : SquareCoord) : Prop :=
  ∃ p, isPath grid obstacles p s g = true

/-- The in-bounds cells of a grid, as a finite set. -/
def validCells (g : Grid) : Finset SquareCoord :=
  ((Finset.range g.width.toNat) ×ˢ (Finset.range g.height.toNat)).image
    fun xy => ⟨(xy.1 : Int), (xy.2 : Int)⟩

/-- Projection of the snakes dict to heads only: the food-collision scan
depends on a snake entry only through its id and head. -/
def headsOf (snakes : List (String × Snake)) : List (String × Option SquareCoord) :=
  snakes.map fun kv => (kv.1, kv.2.get_head)

/-- The snake that eats a food at `pos`: the first dict entry (in
insertion order) that is active and whose head is at `pos`. -/
def eaterOf (snakesHeads : List (String × Option SquareCoord)) (active : Finset String)
    (pos : SquareCoord) : Option String :=
  (snakesHeads.find? fun kh => decide (kh.1 ∈ active) && decide (kh.2 = some pos)).map Prod.fst

/-- Termination potential of the A* loop: every iteration strictly
decreases it (a pop always removes one heap entry; an iteration that
closes a new cell adds at most four entries but also enlarges the closed
set, which is bounded by the in-bounds cells). -/
def astarPhi (grid : Grid) (st : AStarState) : Nat :=
  st.heap.length + 4 * ((validCells grid).card - st.closed.card)

/-- Invariant of the A* loop state, relative to the search parameters.
`pend` is the set of cells whose closing is still being processed by the
neighbour loop (the two neighbour-facing fields are suspended for them;
the established invariant takes `pend = ∅`). The fields record: parent
links point backwards to closed nodes one `g_cost` step cheaper across a
grid edge, the `all_nodes` dict is a bijection between discovered
positions and store slots, every discovered but unclosed position keeps a
live heap entry, closed cells have all their usable neighbours discovered
with `g_cost` at most one above their own, the goal is never closed, and
`g_cost` values are bounded by the closed count (which bounds parent-chain
length). -/
structure AStarInvP (grid : Grid) (obstacles : Finset SquareCoord)
    (start goal : SquareCoord) (pend : Finset SquareCoord) (st : AStarState) : Prop where
  start_valid : grid.is_valid_position start = true
  start_free : start ∉ obstacles
  root_ok : ∀ i, i < st.store.length → (st.store.getD i default).parent = none →
    (st.store.getD i default).position = start ∧ (st.store.getD i default).g_cost = 0
  parent_ok : ∀ i, i < st.store.length → ∀ j, (st.store.getD i default).parent = some j →
    j < st.store.length ∧
    (st.store.getD j default).g_cost + 1 = (st.store.getD i default).g_cost ∧
    (st.store.getD i default).position ∈ grid.get_neighbors (st.store.getD j default).position ∧
    (st.store.getD i default).position ∉ obstacles ∧
    (st.store.getD j default).position ∈ st.closed
  lookup_ok : ∀ p i, lookupPos st.all_nodes p = some i →
    i < st.store.length ∧ (st.store.getD i default).position = p
  store_reg : ∀ i, i < st.store.length →
    lookupPos st.all_nodes (st.store.getD i default).position = some i
  heap_bound : ∀ i ∈ st.heap, i < st.store.length
  open_entry : ∀ p i, lookupPos st.all_nodes p = some i → p ∉ st.closed → i ∈ st.heap
  closed_nbrs : ∀ p ∈ st.closed, p ∉ pend → ∀ q ∈ grid.get_neighbors p, q ∉ obstacles →
    ∃ j, lookupPos st.all_nodes q = some j
  closed_disc : ∀ p ∈ st.closed, ∃ i, lookupPos st.all_nodes p = some i
  closed_valid : ∀ p ∈ st.closed, grid.is_valid_position p = true
  gbound : ∀ p i q j, p ∈ st.closed → p ∉ pend → lookupPos st.all_nodes p = some i →
    q ∈ grid.get_neighbors p → q ∉ obstacles → q ∉ st.closed →
    lookupPos st.all_nodes q = some j →
    (st.store.getD j default).g_cost ≤ (st.store.getD i default).g_cost + 1
  goal_open : goal ∉ st.closed
  start_disc : lookupPos st.all_nodes start ≠ none
  g_nonneg : ∀ i, i < st.store.length → 0 ≤ (st.store.getD i default).g_cost
  g_card : ∀ i, i < st.store.length →
    (st.store.getD i default).g_cost ≤ (st.closed.card : Int)
  g_card_closed : ∀ i, i < st.store.length →
    (st.store.getD i default).position ∈ st.closed →
    (st.store.getD i default).g_cost < (st.closed.card : Int)

/-- The established invariant: no pending cell. -/
def AStarInv (grid : Grid) (obstacles : Finset SquareCoord) (start goal : SquareCoord)
    (st : AStarState) : Prop :=
  AStarInvP grid obstacles start goal ∅ st

/-- What one `expandNeighbor` call (and hence any run of them) does to the
search state: the store only grows, positions are stable, `g_cost` values
only decrease, nodes of closed positions are never touched, the closed
set and the dict entries are stable, and heap entries are never lost. -/
structure ExpandFacts (st st' : AStarState) : Prop where
  store_len : st.store.length ≤ st'.store.length
  pos_stable : ∀ i, i < st.store.length →
    (st'.store.getD i default).position = (st.store.getD i default).position
  g_mono : ∀ i, i < st.store.length →
    (st'.store.getD i default).g_cost ≤ (st.store.getD i default).g_cost
  closed_eq : st'.closed = st.closed
  nodes_stable : ∀ p i, lookupPos st.all_nodes p = some i → lookupPos st'.all_nodes p = some i
  frozen : ∀ i, i < st.store.length → (st.store.getD i default).position ∈ st.closed →
    st'.store.getD i default = st.store.getD i default
  heap_keep : ∀ x ∈ st.heap, x ∈ st'.heap

/-- The per-neighbour postcondition of the expansion loop: the cell is an
obstacle, or already closed, or discovered with a `g_cost` at most one
step above the expanding node's. -/
def QDone (obstacles : Finset SquareCoord) (cid : Nat) (st : AStarState)
    (q : SquareCoord) : Prop :=
  q ∈ obstacles ∨ q ∈ st.closed ∨ ∃ j, j < st.store.length ∧
    lookupPos st.all_nodes q = some j ∧
    (st.store.getD j default).g_cost ≤ (st.store.getD cid default).g_cost + 1

/-- The initial search state built by `find_path_astar` before entering the
main loop: one start node with `g = 0`, pushed onto the fresh heap, an empty
closed set and a one-entry dict. -/
def astarInitState (start goal : SquareCoord) : AStarState :=
  { store := [⟨start, 0, PathFinder._heuristic start goal,
      0 + PathFinder._heuristic start goal, none⟩]
    heap := heappush [⟨start, 0, PathFinder._heuristic start goal,
      0 + PathFinder._heuristic start goal, none⟩] [] 0
    closed := ∅
    all_nodes := [(start, 0)] }

/-- The path that `find_path_astar` returns on the counterexample
instance: 12 cells, i.e. 11 steps, where the graph distance is 9. -/
def c1path : List SquareCoord :=
  [⟨2, 5⟩, ⟨2, 6⟩, ⟨3, 6⟩, ⟨4, 6⟩, ⟨4, 5⟩, ⟨5, 5⟩, ⟨5, 4⟩, ⟨6, 4⟩, ⟨7, 4⟩, ⟨7, 5⟩, ⟨7, 6⟩,
   ⟨7, 7⟩]

/-- Concrete snake for the SCORE_RACE collision scenario, already moved
one step right so that its head sits on the other snake's body. -/
def c2snakeA : Snake := ({ Snake.create ⟨2, 2⟩ .right 3 with snake_id := "a" }.move).2

/-- The snake whose body cell `(3,2)` is hit. -/
def c2snakeB : Snake := { Snake.create ⟨3, 2⟩ .down 3 with snake_id := "b" }

/-- A two-snake game in the given mode, right after snake `a` moved its
head onto `(3,2)`, a body cell of snake `b`. -/
def c2state (mode : GameMode) : MultiSnakeGame :=
  { MultiSnakeGame.init ⟨10, 10, ∅⟩ mode with
      snakes := [("a", c2snakeA), ("b", c2snakeB)]
      scores := [("a", 0), ("b", 0)]
      active_snakes := {"a", "b"} }

/-- A fresh game over a 5x5 grid whose cell `(2,2)` is occupied. -/
def c4state : MultiSnakeGame := MultiSnakeGame.init ⟨5, 5, {⟨2, 2⟩}⟩ .free_for_all

/-- A food item at `(5,5)` worth 10 points. -/
def c7food : Food := ⟨⟨5, 5⟩, "apple", 10⟩

/-- A game where the heads of both active snakes `a` and `b` sit on the
single food item's cell in the same tick. -/
def c7state : MultiSnakeGame :=
  { MultiSnakeGame.init ⟨10, 10, ∅⟩ .free_for_all with
      snakes := [("a", { Snake.create ⟨5, 5⟩ .right 3 with snake_id := "a" }),
                 ("b", { Snake.create ⟨5, 5⟩ .down 3 with snake_id := "b" })]
      scores := [("a", 0), ("b", 0)]
      active_snakes := {"a", "b"}
      food_items := [c7food] }

/-- A 3x3 grid with every cell occupied. -/
def c5grid : Grid := ⟨3, 3, validCells ⟨3, 3, ∅⟩⟩

/-- A fresh game over the fully occupied grid: `_update_food` can never
spawn anything, yet `max_food_items = 5 > 0` food items are demanded. -/
def c5state : MultiSnakeGame := MultiSnakeGame.init c5grid .free_for_all

/-- The 8x9 grid of the A* optimality counterexample. -/
def c1grid : Grid := ⟨8, 9, ∅⟩

/-- Obstacle set on which `find_path_astar` returns a path two steps
longer than the graph distance (the in-place `f_cost` mutation of nodes
already inside the heap breaks the heap ordering). -/
def c1obstacles : Finset SquareCoord :=
  {⟨1, 6⟩, ⟨2, 3⟩, ⟨2, 7⟩, ⟨3, 5⟩, ⟨3, 7⟩, ⟨3, 8⟩, ⟨5, 6⟩, ⟨5, 7⟩, ⟨5, 8⟩, ⟨6, 5⟩}

/-- A valid 10-cell (9-step) path from `(2,5)` to `(7,7)` on the
counterexample instance, witnessing that the graph distance is at most 9
while A* returns an 11-step path. -/
def c1shorter : List SquareCoord :=
  [⟨2, 5⟩, ⟨2, 4⟩, ⟨3, 4⟩, ⟨4, 4⟩, ⟨5, 4⟩, ⟨6, 4⟩, ⟨7, 4⟩, ⟨7, 5⟩, ⟨7, 6⟩, ⟨7, 7⟩]

/-- C3, counterexample: constructing an `AISnake` with difficulty −1 gives
`mistake_chance = 1 − (−1) = 2`, not `1 − clamped = 0.9`, and
`decision_delay = 0.1`, not `0.2 − 0.1·0.15 = 0.185`; with difficulty 5
the mistake chance is even negative. The claimed derivations fail on a
freshly constructed snake. -/
theorem c3_counterexample :
    (AISnakeParams.init (-1)).mistake_chance = 2 ∧
    (AISnakeParams.init (-1)).mistake_chance ≠ 1 - (AISnakeParams.init (-1)).difficulty ∧
    (AISnakeParams.init (-1)).decision_delay ≠ 37/200 ∧
    (AISnakeParams.init 5).mistake_chance = -4 := by
  refine ⟨?_, ?_, ?_, ?_⟩ <;> norm_num [AISnakeParams.init, min_def, max_def]

/-- C3, amended: the `difficulty` field itself is clamped as claimed
(−1 gives 0.1, 5 gives 1.0), but in `__init__` the derived fields are
`decision_delay = 0.1` (a constant) and `mistake_chance = 1 − raw
difficulty` (unclamped). The claimed relations `mistake_chance = 1 −
clamped` and `decision_delay = 0.2 − clamped·0.15` hold exactly after
`set_difficulty`, where `set_difficulty(−1)` yields 0.9 and 0.185 and
`set_difficulty(5)` yields 0.0 and 0.05. -/
theorem c3_difficulty_amended :
    (AISnakeParams.init (-1)).difficulty = 1/10 ∧
    (AISnakeParams.init 5).difficulty = 1 ∧
    (∀ d : ℚ, (AISnakeParams.init d).decision_delay = 1/10 ∧
      (AISnakeParams.init d).mistake_chance = 1 - d) ∧
    (∀ (p : AISnakeParams) (d : ℚ),
      (p.set_difficulty d).difficulty = max (1/10) (min 1 d) ∧
      (p.set_difficulty d).mistake_chance = 1 - (p.set_difficulty d).difficulty ∧
      (p.set_difficulty d).decision_delay = 1/5 - (p.set_difficulty d).difficulty * (3/20)) ∧
    (∀ p : AISnakeParams,
      (p.set_difficulty (-1)).mistake_chance = 9/10 ∧
      (p.set_difficulty (-1)).decision_delay = 37/200 ∧
      (p.set_difficulty 5).mistake_chance = 0 ∧
      (p.set_difficulty 5).decision_delay = 1/20) := by
  refine ⟨by norm_num [AISnakeParams.init, min_def, max_def],
          by norm_num [AISnakeParams.init, min_def, max_def],
          fun d => ⟨rfl, rfl⟩, fun p d => ⟨rfl, rfl, rfl⟩, fun p => ?_⟩
  refine ⟨?_, ?_, ?_, ?_⟩ <;> norm_num [AISnakeParams.set_difficulty, min_def, max_def]

/-- C6, counterexample: with the single obstacle `(0,0)` the danger list
contains `(−1,−1)`, which is out of bounds on any grid (here 10x10):
`_get_danger_positions` performs no bounds filtering. -/
theorem c6_counterexample :
    (⟨-1, -1⟩ : SquareCoord) ∈ AISnake._get_danger_positions [⟨0, 0⟩] ∧
    Grid.is_valid_position ⟨10, 10, ∅⟩ ⟨-1, -1⟩ = false := by
  exact ⟨by decide, by decide⟩

/-- Auxiliary: every delta of the 3x3 scan is bounded by one in each
coordinate. -/
lemma deltas3_bounds : ∀ d ∈ deltas3, |d.1| ≤ 1 ∧ |d.2| ≤ 1 := by decide

/-- C6, amended: every listed danger cell is within Chebyshev distance 1
of some obstacle (adjacent including diagonals) and is not itself an
obstacle; but the cells are not restricted to the grid bounds (no grid is
consulted at all). -/
theorem c6_danger_amended (obstacles : List SquareCoord) (p : SquareCoord)
    (hp : p ∈ AISnake._get_danger_positions obstacles) :
    p ∉ obstacles ∧ ∃ o ∈ obstacles, |p.x - o.x| ≤ 1 ∧ |p.y - o.y| ≤ 1 := by
  simp only [AISnake._get_danger_positions, List.mem_flatMap, List.mem_filter,
    List.mem_map, decide_eq_true_eq] at hp
  obtain ⟨o, ho, ⟨d, hd, rfl⟩, hnot⟩ := hp
  obtain ⟨h1, h2⟩ := deltas3_bounds d hd
  refine ⟨hnot, o, ho, ?_, ?_⟩
  · show |o.x + d.1 - o.x| ≤ 1
    have h : o.x + d.1 - o.x = d.1 := by ring
    rw [h]; exact h1
  · show |o.y + d.2 - o.y| ≤ 1
    have h : o.y + d.2 - o.y = d.2 := by ring
    rw [h]; exact h2

/-- Witness for C6 at the concrete obstacle list `[(0,0)]` and danger cell
`(0,1)`. -/
theorem c6_witness :
    (⟨0, 1⟩ : SquareCoord) ∈ AISnake._get_danger_positions [⟨0, 0⟩] ∧
    ((⟨0, 1⟩ : SquareCoord) ∉ [(⟨0, 0⟩ : SquareCoord)] ∧
      ∃ o ∈ [(⟨0, 0⟩ : SquareCoord)],
        |(0 : Int) - o.x| ≤ 1 ∧ |(1 : Int) - o.y| ≤ 1) :=
  ⟨by decide, c6_danger_amended [⟨0, 0⟩] ⟨0, 1⟩ (by decide)⟩

/-- C8, confirmed: `set_direction` with the exact opposite of the current
direction returns false and changes nothing, and with any other direction
returns true and stores it as the pending direction. -/
theorem c8_reversal_guard (s : Snake) (d : Direction) (hd : d ≠ s.direction.opposite) :
    s.set_direction s.direction.opposite = (false, s) ∧
    s.set_direction d = (true, { s with next_direction := d }) := by
  obtain ⟨segs, dir, nd, gp, sk, id, ai⟩ := s
  cases dir <;> cases d <;>
    simp_all [Snake.set_direction, Direction.opposite, Direction.get_dx_dy]

/-- Witness for C8 on a concrete snake heading right: LEFT is rejected
without touching the pending direction, UP is accepted and stored. -/
theorem c8_witness :
    Direction.up ≠ (Snake.create ⟨5, 5⟩ .right 3).direction.opposite ∧
    ((Snake.create ⟨5, 5⟩ .right 3).set_direction
        (Snake.create ⟨5, 5⟩ .right 3).direction.opposite
      = (false, Snake.create ⟨5, 5⟩ .right 3) ∧
     (Snake.create ⟨5, 5⟩ .right 3).set_direction .up
      = (true, { Snake.create ⟨5, 5⟩ .right 3 with next_direction := .up })) :=
  ⟨by decide, c8_reversal_guard _ _ (by decide)⟩

/-- C2, counterexample: in SCORE_RACE mode, snake `a` moving its head onto
a body cell of snake `b` emits the SNAKE collision event but eliminates
nobody (both snakes stay active), whereas the identical FREE_FOR_ALL state
eliminates `a`. -/
theorem c2_counterexample :
    (((c2state .score_race)._handle_snake_movement "a" c2snakeA none).1
        = [⟨"a", .snake, ⟨3, 2⟩, some "b"⟩] ∧
     ((c2state .score_race)._handle_snake_movement "a" c2snakeA none).2.active_snakes
        = {"a", "b"} ∧
     ((c2state .score_race)._handle_snake_movement "a" c2snakeA none).2.eliminated_snakes
        = ∅) ∧
    (((c2state .free_for_all)._handle_snake_movement "a" c2snakeA none).2.active_snakes
        = {"b"} ∧
     ((c2state .free_for_all)._handle_snake_movement "a" c2snakeA none).2.eliminated_snakes
        = {"a"}) := by
  decide

/-- C2, amended: in SCORE_RACE mode a snake-vs-snake head collision is
resolved like COOPERATIVE, not like FREE_FOR_ALL: the if/elif chain of
`_handle_snake_collision` has no SCORE_RACE branch, so the state is left
completely unchanged and nobody is eliminated, while in FREE_FOR_ALL the
snake whose head caused the hit is eliminated. -/
theorem c2_score_race_amended :
    (∀ (g : MultiSnakeGame) (id1 id2 : String) (pos : SquareCoord),
      g.game_mode = .score_race → g._handle_snake_collision id1 id2 pos = g) ∧
    (∀ (g : MultiSnakeGame) (id1 id2 : String) (pos : SquareCoord) (sn : Snake),
      g.game_mode = .free_for_all → dictLookup g.snakes id1 = some sn →
      sn.get_head = some pos →
      g._handle_snake_collision id1 id2 pos = g._handle_snake_elimination id1) := by
  constructor
  · intro g id1 id2 pos h
    simp [MultiSnakeGame._handle_snake_collision, h]
  · intro g id1 id2 pos sn hm hl hh
    simp [MultiSnakeGame._handle_snake_collision, hm, hl, hh]

/-- Witness for C2 at the concrete two-snake collision state. -/
theorem c2_witness :
    (c2state .score_race)._handle_snake_collision "a" "b" ⟨3, 2⟩ = c2state .score_race ∧
    (c2state .free_for_all)._handle_snake_collision "a" "b" ⟨3, 2⟩
      = (c2state .free_for_all)._handle_snake_elimination "a" :=
  ⟨c2_score_race_amended.1 _ "a" "b" _ rfl,
   c2_score_race_amended.2 _ "a" "b" _ c2snakeA rfl (by decide) (by decide)⟩

/-- C4, counterexample: on a grid whose cell `(2,2)` is occupied, adding a
player or AI snake with start `(2,2)` succeeds and mutates the state —
occupancy is never checked by `add_player_snake`/`add_ai_snake`. -/
theorem c4_counterexample :
    c4state.grid.is_occupied ⟨2, 2⟩ = true ∧
    (c4state.add_player_snake "p1" ⟨2, 2⟩ .right).1 = true ∧
    (c4state.add_player_snake "p1" ⟨2, 2⟩ .right).2 ≠ c4state ∧
    (c4state.add_ai_snake "p2" ⟨2, 2⟩).1 = true ∧
    (c4state.add_ai_snake "p2" ⟨2, 2⟩).2 ≠ c4state := by
  decide

/-- C4, amended: an out-of-bounds start (or a duplicate id) makes both add
operations return false with the whole state unchanged; but occupancy is
not consulted — a fresh id with an in-bounds start is accepted even when
the cell is occupied. -/
theorem c4_add_snake_amended (g : MultiSnakeGame) (id : String) (pos : SquareCoord)
    (dir : Direction) :
    (g.grid.is_valid_position pos = false →
      g.add_player_snake id pos dir = (false, g) ∧ g.add_ai_snake id pos = (false, g)) ∧
    (dictContains g.snakes id = false → g.grid.is_valid_position pos = true →
      (g.add_player_snake id pos dir).1 = true ∧ (g.add_ai_snake id pos).1 = true) := by
  constructor
  · intro h
    constructor
    · unfold MultiSnakeGame.add_player_snake
      split_ifs with h1 h2 <;> simp_all
    · unfold MultiSnakeGame.add_ai_snake
      split_ifs with h1 h2 <;> simp_all
  · intro h1 h2
    constructor
    · unfold MultiSnakeGame.add_player_snake
      split_ifs with ha <;> simp_all
    · unfold MultiSnakeGame.add_ai_snake
      split_ifs with ha <;> simp_all

/-- Witness for C4: out-of-bounds start rejected without mutation, and an
occupied in-bounds start accepted, on the concrete 5x5 state. -/
theorem c4_witness :
    (c4state.add_player_snake "p1" ⟨-1, 0⟩ .right = (false, c4state) ∧
     c4state.add_ai_snake "p1" ⟨-1, 0⟩ = (false, c4state)) ∧
    ((c4state.add_player_snake "p1" ⟨2, 2⟩ .right).1 = true ∧
     (c4state.add_ai_snake "p1" ⟨2, 2⟩).1 = true) :=
  ⟨(c4_add_snake_amended c4state "p1" ⟨-1, 0⟩ .right).1 (by decide),
   (c4_add_snake_amended c4state "p1" ⟨2, 2⟩ .right).2 (by decide) (by decide)⟩

/-- On a game whose grid guard `len(occupied) >= width*height` holds and
whose food count is below the maximum, `_update_food` makes no progress:
`spawn_food` returns `None` every iteration, the state never changes, and
the while loop runs forever (no fuel suffices), whatever the random
stream or choice oracle produce. -/
lemma update_food_stuck (g : MultiSnakeGame)
    (hlen : (g.food_items.length : Int) < g.max_food_items)
    (hcard : (g.grid.occupied.card : Int) ≥ g.grid.width * g.grid.height) :
    ∀ (fuel : Nat) (rands : Nat → ℚ) (pick : List SquareCoord → SquareCoord) (k : Nat),
      MultiSnakeGame._update_food fuel rands pick k g = none := by
  have hspawn : ∀ pick, Food.spawn_food g.grid pick = none := by
    intro pick
    simp [Food.spawn_food, Grid.get_random_empty_cell, hcard]
  intro fuel
  induction fuel with
  | zero => intro rands pick k; rfl
  | succ n ih =>
    intro rands pick k
    rw [MultiSnakeGame._update_food, if_pos hlen]
    by_cases hr : rands k < g.food_spawn_rate
    · rw [if_pos hr, hspawn pick]
      exact ih rands pick (k+1)
    · rw [if_neg hr]
      exact ih rands pick (k+1)

/-- The movement loop leaves the accumulator untouched when the snakes
dict is empty. -/
lemma moveStep_fold_empty (order : List String) (ev : List CollisionEvent)
    (gs : MultiSnakeGame) (h : gs.snakes = []) :
    order.foldl MultiSnakeGame.moveStep (ev, gs) = (ev, gs) := by
  induction order with
  | nil => rfl
  | cons sid rest ih =>
    have hstep : MultiSnakeGame.moveStep (ev, gs) sid = (ev, gs) := by
      simp [MultiSnakeGame.moveStep, dictLookup, h]
    simp [List.foldl_cons, hstep, ih]

/-- Any snakeless game over a grid satisfying the full-occupancy guard
with fewer foods than the maximum makes `update` diverge. -/
lemma update_diverges (g : MultiSnakeGame) (hsn : g.snakes = [])
    (hlen : (g.food_items.length : Int) < g.max_food_items)
    (hcard : (g.grid.occupied.card : Int) ≥ g.grid.width * g.grid.height) :
    ∀ (dt : ℚ) (decisions : String → Option Direction) (order : List String)
      (fuel : Nat) (rands : Nat → ℚ) (pick : List SquareCoord → SquareCoord),
      g.update dt decisions order fuel rands pick = none := by
  intro dt decisions order fuel rands pick
  unfold MultiSnakeGame.update
  dsimp only [MultiSnakeGame.aiPass]
  rw [hsn]
  dsimp only [List.map_nil]
  rw [moveStep_fold_empty order [] _ rfl]
  rw [update_food_stuck _ (by simpa using hlen) (by simpa using hcard) fuel rands pick 0]

/-- C5, code_bug: on the reachable state `MultiSnakeGame.init` over a
fully occupied 3x3 grid, `update(dt)` never terminates: for every fuel,
every random stream, every choice oracle, every AI-decision oracle and
every iteration order, both `_update_food` and hence `update` are still
running (`none`). The spec says a tick always runs to completion. -/
theorem c5_update_food_diverges :
    (∀ (fuel : Nat) (rands : Nat → ℚ) (pick : List SquareCoord → SquareCoord) (k : Nat),
      MultiSnakeGame._update_food fuel rands pick k c5state = none) ∧
    (∀ (dt : ℚ) (decisions : String → Option Direction) (order : List String)
       (fuel : Nat) (rands : Nat → ℚ) (pick : List SquareCoord → SquareCoord),
      c5state.update dt decisions order fuel rands pick = none) :=
  ⟨update_food_stuck c5state (by decide) (by decide),
   update_diverges c5state rfl (by decide) (by decide)⟩

lemma dictContains_of_mem {α : Type} {l : List (String × α)} {kv : String × α}
    (h : kv ∈ l) : dictContains l kv.1 = true := by
  simp only [dictContains, List.any_eq_true]
  exact ⟨kv, h, by simp⟩

lemma dictContains_of_lookup {α : Type} {l : List (String × α)} {k : String} {v : α}
    (h : dictLookup l k = some v) : dictContains l k = true := by
  simp only [dictLookup, Option.map_eq_some'] at h
  obtain ⟨kv, hfind, rfl⟩ := h
  have hmem := List.mem_of_find?_eq_some hfind
  have hk := List.find?_some hfind
  simp only [beq_iff_eq] at hk
  subst hk
  exact dictContains_of_mem hmem

lemma dictContains_append_mono {α : Type} {l : List (String × α)} (l2 : List (String × α))
    {x : String} (h : dictContains l x = true) : dictContains (l ++ l2) x = true := by
  simp only [dictContains, List.any_append, Bool.or_eq_true]
  exact Or.inl h

lemma dictContains_dictSet_mono {α : Type} {l : List (String × α)} (k : String) (v : α)
    {x : String} (h : dictContains l x = true) : dictContains (dictSet l k v) x = true := by
  induction l with
  | nil => simp [dictContains] at h
  | cons kv rest ih =>
    simp only [dictContains, List.any_cons, Bool.or_eq_true] at h
    by_cases hk : (kv.1 == k) = true
    · simp only [dictSet, hk, if_true, dictContains, List.any_cons, Bool.or_eq_true]
      rcases h with h | h
      · left
        have h1 : kv.1 = k := by simpa using hk
        have h2 : kv.1 = x := by simpa using h
        simp [← h1, h2]
      · right; exact h
    · simp only [dictSet, if_neg hk, dictContains, List.any_cons, Bool.or_eq_true] at h ⊢
      rcases h with h | h
      · exact Or.inl h
      · exact Or.inr (ih h)

lemma dictContains_dictSet_self {α : Type} (l : List (String × α)) (k : String) (v : α) :
    dictContains (dictSet l k v) k = true := by
  induction l with
  | nil => simp [dictSet, dictContains]
  | cons kv rest ih =>
    by_cases hk : kv.1 == k
    · simp [dictSet, hk, dictContains]
    · simp only [dictSet, hk, Bool.false_eq_true, if_false, dictContains, List.any_cons,
        Bool.or_eq_true]
      exact Or.inr ih

lemma stepOk_rfl (g : MultiSnakeGame) : StepOk g g :=
  ⟨fun h => h, Finset.Subset.refl _, fun _ h => h⟩

lemma stepOk_trans {a b c : MultiSnakeGame} (h1 : StepOk a b) (h2 : StepOk b c) :
    StepOk a c :=
  ⟨fun h => h2.1 (h1.1 h), Finset.Subset.trans h1.2.1 h2.2.1,
   fun x hx => h2.2.2 x (h1.2.2 x hx)⟩

/-- A state change that keeps `snakes`, `active_snakes` and
`eliminated_snakes` satisfies `StepOk`. -/
lemma stepOk_of_eq {g g' : MultiSnakeGame} (hsn : g'.snakes = g.snakes)
    (ha : g'.active_snakes = g.active_snakes)
    (he : g'.eliminated_snakes = g.eliminated_snakes) : StepOk g g' := by
  refine ⟨fun hg => ?_, by rw [he], fun x hx => by rw [hsn]; exact hx⟩
  obtain ⟨h1, h2, h3⟩ := hg
  exact ⟨by rw [ha, he]; exact h1, by rw [ha, hsn]; exact h2, by rw [he, hsn]; exact h3⟩

lemma elim_snakes (g : MultiSnakeGame) (id : String) :
    (g._handle_snake_elimination id).snakes = g.snakes := by
  unfold MultiSnakeGame._handle_snake_elimination
  split <;> rfl

lemma elim_sets (g : MultiSnakeGame) (id : String) :
    (g._handle_snake_elimination id).active_snakes = g.active_snakes.erase id ∧
    (g._handle_snake_elimination id).eliminated_snakes = insert id g.eliminated_snakes := by
  unfold MultiSnakeGame._handle_snake_elimination
  split <;> exact ⟨rfl, rfl⟩

lemma stepOk_elim (g : MultiSnakeGame) (id : String)
    (hid : dictContains g.snakes id = true) :
    StepOk g (g._handle_snake_elimination id) := by
  obtain ⟨hA, hE⟩ := elim_sets g id
  refine ⟨fun hg => ?_, ?_, fun x hx => by rw [elim_snakes]; exact hx⟩
  · obtain ⟨h1, h2, h3⟩ := hg
    refine ⟨?_, ?_, ?_⟩
    · rw [hA, hE]
      rw [Finset.disjoint_left]
      intro x hxa hxe
      have hxa' := Finset.mem_of_mem_erase hxa
      have hxne := Finset.ne_of_mem_erase hxa
      rcases Finset.mem_insert.mp hxe with h | h
      · exact hxne h
      · exact (Finset.disjoint_left.mp h1) hxa' h
    · intro x hxa
      rw [hA] at hxa
      rw [elim_snakes]
      exact h2 x (Finset.mem_of_mem_erase hxa)
    · intro x hxe
      rw [hE] at hxe
      rw [elim_snakes]
      rcases Finset.mem_insert.mp hxe with h | h
      · rw [h]; exact hid
      · exact h3 x h
  · rw [hE]
    exact Finset.subset_insert _ _

lemma collision_snakes (g : MultiSnakeGame) (a b : String) (pos : SquareCoord) :
    (g._handle_snake_collision a b pos).snakes = g.snakes := by
  unfold MultiSnakeGame._handle_snake_collision
  split
  · rw [elim_snakes, elim_snakes]
  · split
    · split
      · rw [elim_snakes]
      · rfl
    · rfl
  · rfl
  · rfl

lemma stepOk_collision (g : MultiSnakeGame) (a b : String) (pos : SquareCoord)
    (ha : dictContains g.snakes a = true) (hb : dictContains g.snakes b = true) :
    StepOk g (g._handle_snake_collision a b pos) := by
  unfold MultiSnakeGame._handle_snake_collision
  split
  · refine stepOk_trans (stepOk_elim g a ha) (stepOk_elim _ b ?_)
    rw [elim_snakes]; exact hb
  · split
    · split
      · exact stepOk_elim g a ha
      · exact stepOk_rfl g
    · exact stepOk_rfl g
  · exact stepOk_rfl g
  · exact stepOk_rfl g

/-- The snake-vs-snake scan keeps the snakes dict and satisfies `StepOk`,
provided the moving id and all scanned entries are dict keys. -/
lemma collide_fold_ok (g : MultiSnakeGame) (snake_id : String) (head : SquareCoord)
    (hsid : dictContains g.snakes snake_id = true) :
    ∀ (zs : List (String × Snake)) (ev : List CollisionEvent) (gs : MultiSnakeGame),
      gs.snakes = g.snakes → (∀ kv ∈ zs, dictContains g.snakes kv.1 = true) →
      StepOk g gs →
      (zs.foldl (MultiSnakeGame.collideStep snake_id head) (ev, gs)).2.snakes = g.snakes ∧
      StepOk g (zs.foldl (MultiSnakeGame.collideStep snake_id head) (ev, gs)).2 := by
  intro zs
  induction zs with
  | nil => intro ev gs hsn _ hok; exact ⟨hsn, hok⟩
  | cons kv rest ih =>
    intro ev gs hsn hkeys hok
    rw [List.foldl_cons]
    unfold MultiSnakeGame.collideStep
    split
    · refine ih _ _ ?_ (fun z hz => hkeys z (List.mem_cons_of_mem _ hz)) ?_
      · rw [collision_snakes, hsn]
      · refine stepOk_trans hok (stepOk_collision _ _ _ _ ?_ ?_)
        · rw [hsn]; exact hsid
        · rw [hsn]; exact hkeys kv (List.mem_cons_self _ _)
    · exact ih _ _ hsn (fun z hz => hkeys z (List.mem_cons_of_mem _ hz)) hok

/-- `_handle_snake_movement` keeps the snakes dict and satisfies `StepOk`
whenever the moving id is a dict key. -/
lemma stepOk_movement (g : MultiSnakeGame) (sid : String) (sn : Snake)
    (tail : Option SquareCoord) (hsid : dictContains g.snakes sid = true) :
    (g._handle_snake_movement sid sn tail).2.snakes = g.snakes ∧
    StepOk g (g._handle_snake_movement sid sn tail).2 := by
  unfold MultiSnakeGame._handle_snake_movement
  split
  · exact ⟨rfl, stepOk_rfl g⟩
  · next head heq =>
    split
    · exact ⟨elim_snakes g sid, stepOk_elim g sid hsid⟩
    · split
      · exact ⟨elim_snakes g sid, stepOk_elim g sid hsid⟩
      · have hfold := collide_fold_ok g sid head hsid g.snakes [] g rfl
          (fun kv hkv => dictContains_of_mem hkv) (stepOk_rfl g)
        exact ⟨hfold.1, stepOk_trans hfold.2 (stepOk_of_eq rfl rfl rfl)⟩

/-- One movement-loop step satisfies `StepOk`. -/
lemma stepOk_moveStep (acc : List CollisionEvent × MultiSnakeGame) (sid : String) :
    StepOk acc.2 (MultiSnakeGame.moveStep acc sid).2 := by
  unfold MultiSnakeGame.moveStep
  split
  · exact stepOk_rfl _
  · next sn hlook =>
    have h1 : StepOk acc.2
        { acc.2 with snakes := dictSet acc.2.snakes sid (sn.move).2 } := by
      refine ⟨fun hg => ?_, Finset.Subset.refl _,
        fun x hx => dictContains_dictSet_mono _ _ hx⟩
      obtain ⟨ha, hb, hc⟩ := hg
      exact ⟨ha, fun x hx => dictContains_dictSet_mono _ _ (hb x hx),
        fun x hx => dictContains_dictSet_mono _ _ (hc x hx)⟩
    have h2 := stepOk_movement { acc.2 with snakes := dictSet acc.2.snakes sid (sn.move).2 }
      sid (sn.move).2 (sn.move).1 (dictContains_dictSet_self _ _ _)
    exact stepOk_trans h1 h2.2

lemma stepOk_move_fold (order : List String) :
    ∀ acc : List CollisionEvent × MultiSnakeGame,
      StepOk acc.2 (order.foldl MultiSnakeGame.moveStep acc).2 := by
  induction order with
  | nil => intro acc; exact stepOk_rfl _
  | cons sid rest ih =>
    intro acc
    rw [List.foldl_cons]
    exact stepOk_trans (stepOk_moveStep acc sid) (ih _)

/-- `_update_food` touches only the food list and the grid. -/
lemma update_food_state (fuel : Nat) (rands : Nat → ℚ)
    (pick : List SquareCoord → SquareCoord) :
    ∀ (k : Nat) (g g' : MultiSnakeGame) (k' : Nat),
      MultiSnakeGame._update_food fuel rands pick k g = some (g', k') →
      g'.snakes = g.snakes ∧ g'.active_snakes = g.active_snakes ∧
      g'.eliminated_snakes = g.eliminated_snakes ∧ g'.scores = g.scores ∧
      g'.game_mode = g.game_mode := by
  induction fuel with
  | zero => intro k g g' k' h; exact absurd h (by simp [MultiSnakeGame._update_food])
  | succ n ih =>
    intro k g g' k' h
    rw [MultiSnakeGame._update_food] at h
    split at h
    · split at h
      · split at h
        · have hx := ih (k+1) _ g' k' h
          exact hx
        · have hx := ih (k+1) _ g' k' h
          exact hx
      · have hx := ih (k+1) _ g' k' h
        exact hx
    · simp only [Option.some_inj] at h
      injection h with h1 h2
      subst h1
      exact ⟨rfl, rfl, rfl, rfl, rfl⟩

/-- One food-scan step satisfies `StepOk`. -/
lemma stepOk_foodStep (acc : List CollisionEvent × List Food × MultiSnakeGame) (food : Food) :
    StepOk acc.2.2 (MultiSnakeGame.foodStep acc food).2.2 := by
  dsimp only [MultiSnakeGame.foodStep]
  split
  · exact stepOk_rfl _
  · refine ⟨fun hg => ?_, Finset.Subset.refl _,
      fun x hx => dictContains_dictSet_mono _ _ hx⟩
    obtain ⟨ha, hb, hc⟩ := hg
    exact ⟨ha, fun x hx => dictContains_dictSet_mono _ _ (hb x hx),
      fun x hx => dictContains_dictSet_mono _ _ (hc x hx)⟩

lemma stepOk_food_fold (foods : List Food) :
    ∀ acc : List CollisionEvent × List Food × MultiSnakeGame,
      StepOk acc.2.2 (foods.foldl MultiSnakeGame.foodStep acc).2.2 := by
  induction foods with
  | nil => intro acc; exact stepOk_rfl _
  | cons f rest ih =>
    intro acc
    rw [List.foldl_cons]
    exact stepOk_trans (stepOk_foodStep acc f) (ih _)

lemma stepOk_foodRemove_fold (foods : List Food) :
    ∀ gs : MultiSnakeGame, StepOk gs (foods.foldl MultiSnakeGame.foodRemove gs) := by
  induction foods with
  | nil => intro gs; exact stepOk_rfl _
  | cons f rest ih =>
    intro gs
    rw [List.foldl_cons]
    exact stepOk_trans
      (@stepOk_of_eq gs (gs.foodRemove f) rfl rfl rfl)
      (ih (gs.foodRemove f))

lemma stepOk_check_food (g : MultiSnakeGame) :
    StepOk g (g._check_food_collisions).2 := by
  unfold MultiSnakeGame._check_food_collisions
  exact stepOk_trans (stepOk_food_fold g.food_items ([], [], g))
    (stepOk_foodRemove_fold _ _)

/-- The AI-decision pass keys every entry unchanged. -/
lemma dictContains_ai_map (l : List (String × Snake)) (f : String × Snake → String × Snake)
    (hf : ∀ kv, (f kv).1 = kv.1) (x : String) :
    dictContains (l.map f) x = dictContains l x := by
  induction l with
  | nil => rfl
  | cons kv rest ih =>
    simp only [dictContains] at ih ⊢
    simp only [List.map_cons, List.any_cons, hf kv, ih]

lemma stepOk_aiPass (decisions : String → Option Direction) (g0 : MultiSnakeGame) :
    StepOk g0 (MultiSnakeGame.aiPass decisions g0) := by
  have hkeys : ∀ x, dictContains (MultiSnakeGame.aiPass decisions g0).snakes x
      = dictContains g0.snakes x := by
    intro x
    dsimp only [MultiSnakeGame.aiPass]
    refine dictContains_ai_map _ _ (fun kv => ?_) x
    split
    · split <;> rfl
    · rfl
  refine ⟨fun hg => ?_, Finset.Subset.refl _, fun x hx => by rw [hkeys]; exact hx⟩
  obtain ⟨ha, hb, hc⟩ := hg
  exact ⟨ha, fun x hx => by rw [hkeys]; exact hb x hx,
    fun x hx => by rw [hkeys]; exact hc x hx⟩

lemma stepOk_update (g : MultiSnakeGame) (dt : ℚ) (decisions : String → Option Direction)
    (order : List String) (fuel : Nat) (rands : Nat → ℚ)
    (pick : List SquareCoord → SquareCoord) (ev : List CollisionEvent)
    (g' : MultiSnakeGame) (h : g.update dt decisions order fuel rands pick = some (ev, g')) :
    StepOk g g' := by
  unfold MultiSnakeGame.update at h
  dsimp only at h
  split at h
  · exact absurd h (by simp)
  · next g2 k2 hfood =>
    simp only [Option.some_inj, Prod.mk.injEq] at h
    obtain ⟨hev, hg'⟩ := h
    have hstep0 : StepOk g { g with game_time := g.game_time + dt } :=
      stepOk_of_eq rfl rfl rfl
    have hstep1 := stepOk_aiPass decisions { g with game_time := g.game_time + dt }
    have hstep2 := stepOk_move_fold order
      (([] : List CollisionEvent),
        MultiSnakeGame.aiPass decisions { g with game_time := g.game_time + dt })
    have hfood' := update_food_state fuel rands pick 0 _ g2 k2 hfood
    have hstep3 : StepOk (List.foldl MultiSnakeGame.moveStep
        ([], MultiSnakeGame.aiPass decisions { g with game_time := g.game_time + dt })
        order).2 g2 :=
      stepOk_of_eq hfood'.1 hfood'.2.1 hfood'.2.2.1
    have hstep4 := stepOk_check_food g2
    have hstep5 : StepOk (g2._check_food_collisions).2 g' := by
      rw [← hg']
      exact stepOk_of_eq rfl rfl rfl
    exact stepOk_trans hstep0 (stepOk_trans hstep1 (stepOk_trans hstep2
      (stepOk_trans hstep3 (stepOk_trans hstep4 hstep5))))

lemma stepOk_add_player (g : MultiSnakeGame) (id : String) (pos : SquareCoord)
    (dir : Direction) : StepOk g (g.add_player_snake id pos dir).2 := by
  unfold MultiSnakeGame.add_player_snake
  split
  · exact stepOk_rfl g
  · split
    · exact stepOk_rfl g
    · next hdup hval =>
      refine ⟨fun hg => ?_, Finset.Subset.refl _,
        fun x hx => dictContains_append_mono _ hx⟩
      obtain ⟨ha, hb, hc⟩ := hg
      refine ⟨?_, fun x hx => ?_, fun x hx => dictContains_append_mono _ (hc x hx)⟩
      · rw [Finset.disjoint_left]
        intro x hx hxe
        rcases Finset.mem_insert.mp hx with rfl | hx
        · have := hc x hxe
          simp only [Bool.not_eq_true] at hdup
          rw [hdup] at this
          exact absurd this (by simp)
        · exact (Finset.disjoint_left.mp ha) hx hxe
      · rcases Finset.mem_insert.mp hx with rfl | hx
        · simp [dictContains]
        · exact dictContains_append_mono _ (hb x hx)

lemma stepOk_add_ai (g : MultiSnakeGame) (id : String) (pos : SquareCoord) :
    StepOk g (g.add_ai_snake id pos).2 := by
  unfold MultiSnakeGame.add_ai_snake
  split
  · exact stepOk_rfl g
  · split
    · exact stepOk_rfl g
    · next hdup hval =>
      refine ⟨fun hg => ?_, Finset.Subset.refl _,
        fun x hx => dictContains_append_mono _ hx⟩
      obtain ⟨ha, hb, hc⟩ := hg
      refine ⟨?_, fun x hx => ?_, fun x hx => dictContains_append_mono _ (hc x hx)⟩
      · rw [Finset.disjoint_left]
        intro x hx hxe
        rcases Finset.mem_insert.mp hx with rfl | hx
        · have := hc x hxe
          simp only [Bool.not_eq_true] at hdup
          rw [hdup] at this
          exact absurd this (by simp)
        · exact (Finset.disjoint_left.mp ha) hx hxe
      · rcases Finset.mem_insert.mp hx with rfl | hx
        · simp [dictContains]
        · exact dictContains_append_mono _ (hb x hx)

lemma stepOk_remove (g : MultiSnakeGame) (id : String) :
    StepOk g (g.remove_snake id).2 := by
  unfold MultiSnakeGame.remove_snake
  split
  · exact stepOk_rfl g
  · next hin =>
    simp only [Bool.not_eq_true, ← Bool.not_eq_false] at hin
    refine ⟨fun hg => ?_, Finset.subset_insert _ _, fun x hx => hx⟩
    obtain ⟨ha, hb, hc⟩ := hg
    refine ⟨?_, fun x hx => hb x (Finset.mem_of_mem_erase hx), fun x hx => ?_⟩
    · rw [Finset.disjoint_left]
      intro x hx hxe
      have hx' := Finset.mem_of_mem_erase hx
      have hne := Finset.ne_of_mem_erase hx
      rcases Finset.mem_insert.mp hxe with h | h
      · exact hne h
      · exact (Finset.disjoint_left.mp ha) hx' h
    · rcases Finset.mem_insert.mp hx with rfl | h
      · simpa using hin
      · exact hc x h

lemma stepOk_applyOp {g g' : MultiSnakeGame} {op : GameOp}
    (h : applyOp g op = some g') : StepOk g g' := by
  cases op with
  | addPlayer id pos dir =>
    simp only [applyOp, Option.some_inj] at h
    rw [← h]; exact stepOk_add_player g id pos dir
  | addAI id pos =>
    simp only [applyOp, Option.some_inj] at h
    rw [← h]; exact stepOk_add_ai g id pos
  | remove id =>
    simp only [applyOp, Option.some_inj] at h
    rw [← h]; exact stepOk_remove g id
  | tick dt dec ord fuel rands pick =>
    simp only [applyOp, Option.map_eq_some'] at h
    obtain ⟨⟨ev, g2⟩, hup, hg⟩ := h
    rw [← hg]
    exact stepOk_update g dt dec ord fuel rands pick ev g2 hup

lemma stepOk_runOps : ∀ (ops : List GameOp) {g g' : MultiSnakeGame},
    runOps g ops = some g' → StepOk g g' := by
  intro ops
  induction ops with
  | nil =>
    intro g g' h
    simp only [runOps, Option.some_inj] at h
    rw [← h]; exact stepOk_rfl g
  | cons op rest ih =>
    intro g g' h
    simp only [runOps, Option.bind_eq_some] at h
    obtain ⟨g1, h1, h2⟩ := h
    exact stepOk_trans (stepOk_applyOp h1) (ih h2)

/-- C9, confirmed: in every state reachable from a fresh game by adds,
removes and ticks, the active and eliminated sets are disjoint, and from
any such state every further operation sequence only grows the eliminated
set — an eliminated id never reappears in the active set. -/
theorem c9_elimination_monotone (grid : Grid) (mode : GameMode) (ops : List GameOp)
    (s : MultiSnakeGame) (h : runOps (MultiSnakeGame.init grid mode) ops = some s) :
    Disjoint s.active_snakes s.eliminated_snakes ∧
    ∀ (ops2 : List GameOp) (s2 : MultiSnakeGame), runOps s ops2 = some s2 →
      s.eliminated_snakes ⊆ s2.eliminated_snakes ∧
      ∀ id ∈ s.eliminated_snakes, id ∉ s2.active_snakes := by
  have hinit : GoodState (MultiSnakeGame.init grid mode) := by
    refine ⟨?_, ?_, ?_⟩ <;> simp [MultiSnakeGame.init, GoodState]
  have hgood : GoodState s := (stepOk_runOps ops h).1 hinit
  refine ⟨hgood.1, fun ops2 s2 h2 => ?_⟩
  have hstep := stepOk_runOps ops2 h2
  refine ⟨hstep.2.1, fun id hid hact => ?_⟩
  have hgood2 : GoodState s2 := hstep.1 hgood
  exact (Finset.disjoint_left.mp hgood2.1) hact (hstep.2.1 hid)

/-- Witness for C9: the empty operation sequence from a fresh game. -/
theorem c9_witness :
    Disjoint (MultiSnakeGame.init ⟨4, 4, ∅⟩ .survival).active_snakes
      (MultiSnakeGame.init ⟨4, 4, ∅⟩ .survival).eliminated_snakes ∧
    ∀ (ops2 : List GameOp) (s2 : MultiSnakeGame),
      runOps (MultiSnakeGame.init ⟨4, 4, ∅⟩ .survival) ops2 = some s2 →
      (MultiSnakeGame.init ⟨4, 4, ∅⟩ .survival).eliminated_snakes ⊆ s2.eliminated_snakes ∧
      ∀ id ∈ (MultiSnakeGame.init ⟨4, 4, ∅⟩ .survival).eliminated_snakes,
        id ∉ s2.active_snakes :=
  c9_elimination_monotone ⟨4, 4, ∅⟩ .survival [] _ rfl

/-- An id already present in the snakes dict makes both add operations
fail without touching the state. -/
lemma add_blocked (g : MultiSnakeGame) (id : String) (pos pos2 : SquareCoord)
    (dir : Direction) (h : dictContains g.snakes id = true) :
    g.add_player_snake id pos dir = (false, g) ∧ g.add_ai_snake id pos2 = (false, g) := by
  constructor
  · unfold MultiSnakeGame.add_player_snake
    rw [if_pos h]
  · unfold MultiSnakeGame.add_ai_snake
    rw [if_pos h]

/-- C10, confirmed: after a successful `remove_snake(id)`, the id stays a
key of the snakes dict through any further operation sequence, so both
add operations with that id keep returning false for any start
position. -/
theorem c10_removed_id_blocked (g : MultiSnakeGame) (id : String) (g1 : MultiSnakeGame)
    (ops : List GameOp) (s : MultiSnakeGame) (pos pos2 : SquareCoord) (dir : Direction)
    (hrm : g.remove_snake id = (true, g1)) (hrun : runOps g1 ops = some s) :
    dictContains s.snakes id = true ∧
    s.add_player_snake id pos dir = (false, s) ∧
    s.add_ai_snake id pos2 = (false, s) := by
  have hg1 : dictContains g1.snakes id = true := by
    unfold MultiSnakeGame.remove_snake at hrm
    split at hrm
    · exact absurd (Prod.ext_iff.mp hrm).1 (by simp)
    · next hin =>
      have hc : dictContains g.snakes id = true := by
        simpa using hin
      injection hrm with h1 h2
      rw [← h2]
      exact hc
  have hs : dictContains s.snakes id = true := (stepOk_runOps ops hrun).2.2 id hg1
  exact ⟨hs, add_blocked s id pos pos2 dir hs⟩

/-- Witness for C10: remove the only snake of a concrete one-snake game,
then re-adding `a` at any of two positions fails. -/
theorem c10_witness :
    dictContains
      ((((MultiSnakeGame.init ⟨5, 5, ∅⟩ .free_for_all).add_player_snake "a" ⟨1, 1⟩
          .right).2.remove_snake "a").2).snakes "a" = true ∧
    ((((MultiSnakeGame.init ⟨5, 5, ∅⟩ .free_for_all).add_player_snake "a" ⟨1, 1⟩
        .right).2.remove_snake "a").2).add_player_snake "a" ⟨2, 2⟩ .right
      = (false, (((MultiSnakeGame.init ⟨5, 5, ∅⟩ .free_for_all).add_player_snake "a"
          ⟨1, 1⟩ .right).2.remove_snake "a").2) ∧
    ((((MultiSnakeGame.init ⟨5, 5, ∅⟩ .free_for_all).add_player_snake "a" ⟨1, 1⟩
        .right).2.remove_snake "a").2).add_ai_snake "a" ⟨3, 3⟩
      = (false, (((MultiSnakeGame.init ⟨5, 5, ∅⟩ .free_for_all).add_player_snake "a"
          ⟨1, 1⟩ .right).2.remove_snake "a").2) :=
  c10_removed_id_blocked
    (((MultiSnakeGame.init ⟨5, 5, ∅⟩ .free_for_all).add_player_snake "a" ⟨1, 1⟩ .right).2)
    "a" _ [] _ ⟨2, 2⟩ ⟨3, 3⟩ .right (by rfl) rfl

lemma Snake.grow_head (s : Snake) (n : Int) : (s.grow n).get_head = s.get_head := rfl

/-- The food-eater scan only looks at ids and heads. -/
lemma find?_map_headsOf (l : List (String × Snake)) (active : Finset String)
    (pos : SquareCoord) :
    (l.find? fun kv => decide (kv.1 ∈ active) && decide (kv.2.get_head = some pos)).map
        (fun kv => (kv.1, kv.2.get_head))
      = (headsOf l).find? fun kh => decide (kh.1 ∈ active) && decide (kh.2 = some pos) := by
  induction l with
  | nil => rfl
  | cons kv rest ih =>
    simp only [headsOf, List.map_cons, List.find?_cons]
    by_cases hp : (decide (kv.1 ∈ active) && decide (kv.2.get_head = some pos)) = true
    · rw [hp]; rfl
    · rw [Bool.not_eq_true] at hp
      rw [hp]
      exact ih

lemma eaterOf_eq_find (l : List (String × Snake)) (active : Finset String)
    (pos : SquareCoord) :
    (l.find? fun kv => decide (kv.1 ∈ active) && decide (kv.2.get_head = some pos)).map
        Prod.fst = eaterOf (headsOf l) active pos := by
  unfold eaterOf
  rw [← find?_map_headsOf l active pos, Option.map_map]
  rfl

lemma dictLookup_dictSet_self {α : Type} (l : List (String × α)) (k : String) (v : α) :
    dictLookup (dictSet l k v) k = some v := by
  induction l with
  | nil => simp [dictSet, dictLookup]
  | cons kv rest ih =>
    by_cases hk : (kv.1 == k) = true
    · simp [dictSet, hk, dictLookup]
    · simp only [dictSet, if_neg hk, dictLookup, List.find?_cons]
      rw [show (kv.1 == k) = false from by simpa using hk]
      exact ih

lemma dictLookup_dictSet_ne {α : Type} (l : List (String × α)) (k x : String) (v : α)
    (hx : x ≠ k) : dictLookup (dictSet l k v) x = dictLookup l x := by
  have hkx : (k == x) = false := beq_eq_false_iff_ne.mpr fun h => hx h.symm
  induction l with
  | nil =>
    simp only [dictSet, dictLookup, List.find?_cons, List.find?_nil, hkx]
  | cons kv rest ih =>
    by_cases hk : (kv.1 == k) = true
    · have hk' : kv.1 = k := by simpa using hk
      have h2 : (kv.1 == x) = false := by rw [hk']; exact hkx
      simp only [dictSet, if_pos hk, dictLookup, List.find?_cons, hkx, h2]
    · simp only [dictSet, if_neg hk, dictLookup, List.find?_cons]
      cases hzx : (kv.1 == x) with
      | true => rfl
      | false => exact ih

lemma keys_dictSet {α : Type} (l : List (String × α)) (k : String) (v : α)
    (h : dictContains l k = true) :
    (dictSet l k v).map Prod.fst = l.map Prod.fst := by
  induction l with
  | nil => simp [dictContains] at h
  | cons kv rest ih =>
    by_cases hk : (kv.1 == k) = true
    · have hk' : kv.1 = k := by simpa using hk
      simp [dictSet, if_pos hk, hk']
    · have h' : dictContains rest k = true := by
        simp only [dictContains, List.any_cons, Bool.or_eq_true] at h
        rcases h with h | h
        · exact absurd h hk
        · exact h
      have hk' : ¬ kv.1 = k := by simpa using hk
      simp [dictSet, hk', ih h']

/-- With unique keys, replacing the found snake by its grown version keeps
the id-to-head projection unchanged. -/
lemma headsOf_dictSet_grow (l : List (String × Snake)) (kv : String × Snake)
    (pred : String × Snake → Bool) (hfind : l.find? pred = some kv)
    (hnodup : (l.map Prod.fst).Nodup) :
    headsOf (dictSet l kv.1 (kv.2.grow 1)) = headsOf l := by
  induction l with
  | nil => simp at hfind
  | cons z rest ih =>
    rw [List.map_cons, List.nodup_cons] at hnodup
    rw [List.find?_cons] at hfind
    by_cases hk : (z.1 == kv.1) = true
    · have hk' : z.1 = kv.1 := by simpa using hk
      -- the found entry must be z itself: otherwise kv sits in rest with a duplicate key
      have hz : z = kv := by
        cases hp : pred z with
        | true => rw [hp] at hfind; exact (Option.some_inj.mp hfind)
        | false =>
          rw [hp] at hfind
          have hmem := List.mem_of_find?_eq_some hfind
          have : kv.1 ∈ rest.map Prod.fst := List.mem_map_of_mem Prod.fst hmem
          exact absurd (hk' ▸ this) hnodup.1
      simp only [dictSet, if_pos hk, headsOf, List.map_cons]
      rw [← hz]
      simp [Snake.grow_head]
    · cases hp : pred z with
      | true =>
        rw [hp] at hfind
        have hz : z = kv := Option.some_inj.mp hfind
        rw [hz] at hk
        simp at hk
      | false =>
        rw [hp] at hfind
        simp only [dictSet, if_neg hk, headsOf, List.map_cons]
        have hrec := ih hfind hnodup.2
        simp only [headsOf] at hrec
        rw [hrec]

lemma dictLookup_of_find? {α : Type} (l : List (String × α)) (kv : String × α)
    (pred : String × α → Bool) (hfind : l.find? pred = some kv)
    (hnodup : (l.map Prod.fst).Nodup) : dictLookup l kv.1 = some kv.2 := by
  induction l with
  | nil => simp at hfind
  | cons z rest ih =>
    rw [List.map_cons, List.nodup_cons] at hnodup
    rw [List.find?_cons] at hfind
    cases hp : pred z with
    | true =>
      rw [hp] at hfind
      have hz : z = kv := Option.some_inj.mp hfind
      subst hz
      simp [dictLookup]
    | false =>
      rw [hp] at hfind
      have hmem := List.mem_of_find?_eq_some hfind
      have hne : (z.1 == kv.1) = false := by
        by_contra hcontra
        have : z.1 = kv.1 := by simpa using (Bool.not_eq_false _).mp hcontra
        exact hnodup.1 (this ▸ List.mem_map_of_mem Prod.fst hmem)
      simp only [dictLookup, List.find?_cons, hne]
      exact ih hfind hnodup.2

/-- Full characterisation of the food scan: one FOOD event and one removal
entry per eaten food, the eater being the first active snake (in dict
order) whose head is at the food's position; heads, keys, foods and grid
are untouched, and each snake's score grows by exactly the point values of
the foods it ate. -/
lemma foodFold_spec (s : MultiSnakeGame) (hnodup : (s.snakes.map Prod.fst).Nodup) :
    ∀ (foods : List Food) (ev : List CollisionEvent) (rm : List Food) (gs : MultiSnakeGame),
      headsOf gs.snakes = headsOf s.snakes →
      gs.snakes.map Prod.fst = s.snakes.map Prod.fst →
      gs.active_snakes = s.active_snakes →
      (foods.foldl MultiSnakeGame.foodStep (ev, rm, gs)).1 =
          ev ++ foods.filterMap (fun f =>
            (eaterOf (headsOf s.snakes) s.active_snakes f.position).map
              (fun sid => (⟨sid, .food, f.position, none⟩ : CollisionEvent))) ∧
      (foods.foldl MultiSnakeGame.foodStep (ev, rm, gs)).2.1 =
          rm ++ foods.filter (fun f =>
            (eaterOf (headsOf s.snakes) s.active_snakes f.position).isSome) ∧
      (foods.foldl MultiSnakeGame.foodStep (ev, rm, gs)).2.2.food_items = gs.food_items ∧
      (foods.foldl MultiSnakeGame.foodStep (ev, rm, gs)).2.2.grid = gs.grid ∧
      (∀ x : String,
        dictLookup (foods.foldl MultiSnakeGame.foodStep (ev, rm, gs)).2.2.scores x =
          if (foods.filter (fun f =>
              eaterOf (headsOf s.snakes) s.active_snakes f.position == some x)).isEmpty
          then dictLookup gs.scores x
          else some ((dictLookup gs.scores x).getD 0 +
            ((foods.filter (fun f =>
                eaterOf (headsOf s.snakes) s.active_snakes f.position == some x)).map
              Food.point_value).sum)) := by
  intro foods
  induction foods with
  | nil =>
    intro ev rm gs hheads hkeys hact
    refine ⟨by simp, by simp, rfl, rfl, fun x => by simp⟩
  | cons f rest ih =>
    intro ev rm gs hheads hkeys hact
    rw [List.foldl_cons]
    have hfind := (eaterOf_eq_find gs.snakes gs.active_snakes f.position).trans
      (show eaterOf (headsOf gs.snakes) gs.active_snakes f.position
          = eaterOf (headsOf s.snakes) s.active_snakes f.position from by
        rw [hact, hheads])
    cases heater : eaterOf (headsOf s.snakes) s.active_snakes f.position with
    | none =>
      rw [heater] at hfind
      have hnone : gs.snakes.find? (fun kv =>
          decide (kv.1 ∈ gs.active_snakes) && decide (kv.2.get_head = some f.position))
          = none := Option.map_eq_none'.mp hfind
      have hstep : MultiSnakeGame.foodStep (ev, rm, gs) f = (ev, rm, gs) := by
        dsimp only [MultiSnakeGame.foodStep]
        rw [hnone]
      rw [hstep]
      obtain ⟨h1, h2, h3, h4, h5⟩ := ih ev rm gs hheads hkeys hact
      refine ⟨?_, ?_, h3, h4, fun x => ?_⟩
      · rw [h1]
        simp [List.filterMap_cons, heater]
      · rw [h2]
        simp [List.filter_cons, heater]
      · have h5x := h5 x
        rw [List.filter_cons]
        rw [show (eaterOf (headsOf s.snakes) s.active_snakes f.position == some x)
            = false from by rw [heater]; rfl]
        simpa using h5x
    | some sid =>
      rw [heater] at hfind
      obtain ⟨kv, hkv, hsid⟩ := Option.map_eq_some'.mp hfind
      have hnodup' : (gs.snakes.map Prod.fst).Nodup := hkeys ▸ hnodup
      have hstep : MultiSnakeGame.foodStep (ev, rm, gs) f =
          (ev ++ [⟨kv.1, .food, f.position, none⟩], rm ++ [f],
            { gs with
              snakes := dictSet gs.snakes kv.1 (kv.2.grow 1)
              scores := dictSet gs.scores kv.1
                ((dictLookup gs.scores kv.1).getD 0 + f.point_value) }) := by
        dsimp only [MultiSnakeGame.foodStep]
        rw [hkv]
      rw [hstep]
      have hheads1 : headsOf (dictSet gs.snakes kv.1 (kv.2.grow 1)) = headsOf s.snakes := by
        rw [headsOf_dictSet_grow gs.snakes kv _ hkv hnodup', hheads]
      have hkeys1 : (dictSet gs.snakes kv.1 (kv.2.grow 1)).map Prod.fst
          = s.snakes.map Prod.fst := by
        rw [keys_dictSet _ _ _ (dictContains_of_mem (List.mem_of_find?_eq_some hkv)), hkeys]
      obtain ⟨h1, h2, h3, h4, h5⟩ := ih (ev ++ [⟨kv.1, .food, f.position, none⟩])
        (rm ++ [f])
        { gs with
          snakes := dictSet gs.snakes kv.1 (kv.2.grow 1)
          scores := dictSet gs.scores kv.1
            ((dictLookup gs.scores kv.1).getD 0 + f.point_value) }
        hheads1 hkeys1 hact
      refine ⟨?_, ?_, h3, h4, fun x => ?_⟩
      · rw [h1]
        simp only [List.filterMap_cons, heater, Option.map_some', hsid, List.append_assoc,
          List.singleton_append]
      · rw [h2]
        simp only [List.filter_cons, heater, Option.isSome_some, if_true, List.append_assoc,
          List.singleton_append]
      · have h5x := h5 x
        rw [List.filter_cons]
        by_cases hx : x = sid
        · subst hx
          rw [show (eaterOf (headsOf s.snakes) s.active_snakes f.position == some x)
              = true from by rw [heater]; simp]
          simp only [if_true]
          rw [h5x]
          split
          · next hEmpty =>
            rw [hsid, dictLookup_dictSet_self]
            rw [List.isEmpty_iff] at hEmpty
            simp [hEmpty]
          · next hEmpty =>
            rw [hsid, dictLookup_dictSet_self]
            simp only [Option.getD_some]
            rw [List.map_cons, List.sum_cons]
            congr 1
            ring
        · rw [show (eaterOf (headsOf s.snakes) s.active_snakes f.position == some x)
              = false from by rw [heater]; simpa using fun h => hx h.symm]
          rw [h5x]
          rw [dictLookup_dictSet_ne _ _ _ _ (by rw [hsid]; exact hx)]
          simp

/-- C7, confirmed: a food whose cell holds the heads of two distinct
active snakes is consumed exactly once — one FOOD event, one removal, one
score increment by its point value, and every other snake's score is
untouched. The eater is the first active snake in dict-insertion order
whose head is at the food's cell. -/
theorem c7_food_exclusive (s : MultiSnakeGame) (f : Food) (a b : String) (sa sb : Snake)
    (hnodup : (s.snakes.map Prod.fst).Nodup) (hfood : s.food_items = [f])
    (ha : a ∈ s.active_snakes) (hb : b ∈ s.active_snakes) (hab : a ≠ b)
    (hla : dictLookup s.snakes a = some sa) (hlb : dictLookup s.snakes b = some sb)
    (hha : sa.get_head = some f.position) (hhb : sb.get_head = some f.position) :
    ∃ e : String, e ∈ s.active_snakes ∧
      (∃ se : Snake, dictLookup s.snakes e = some se ∧ se.get_head = some f.position) ∧
      (s._check_food_collisions).1 = [⟨e, .food, f.position, none⟩] ∧
      (s._check_food_collisions).2.food_items = [] ∧
      dictLookup (s._check_food_collisions).2.scores e
        = some ((dictLookup s.scores e).getD 0 + f.point_value) ∧
      (∀ x : String, x ≠ e →
        dictLookup (s._check_food_collisions).2.scores x = dictLookup s.scores x) := by
  -- the scan finds an eater, since snake a qualifies
  have hamem : ((a, sa) : String × Snake) ∈ s.snakes := by
    simp only [dictLookup, Option.map_eq_some'] at hla
    obtain ⟨kv, hfind, hsnd⟩ := hla
    have hfst : kv.1 = a := by simpa using List.find?_some hfind
    have := List.mem_of_find?_eq_some hfind
    rw [show ((a, sa) : String × Snake) = kv from Prod.ext hfst.symm hsnd.symm]
    exact this
  have hfindsome : ∃ kv, s.snakes.find? (fun kv =>
      decide (kv.1 ∈ s.active_snakes) && decide (kv.2.get_head = some f.position))
      = some kv := by
    have : (s.snakes.find? (fun kv =>
        decide (kv.1 ∈ s.active_snakes) && decide (kv.2.get_head = some f.position))).isSome := by
      rw [List.find?_isSome]
      exact ⟨(a, sa), hamem, by simp [ha, hha]⟩
    exact Option.isSome_iff_exists.mp this
  obtain ⟨kv, hkv⟩ := hfindsome
  have hpred := List.find?_some hkv
  rw [Bool.and_eq_true, decide_eq_true_eq, decide_eq_true_eq] at hpred
  have heater : eaterOf (headsOf s.snakes) s.active_snakes f.position = some kv.1 := by
    rw [← eaterOf_eq_find, hkv]
    rfl
  have hscores : ∀ (rmfoods : List Food) (gg : MultiSnakeGame),
      (rmfoods.foldl MultiSnakeGame.foodRemove gg).scores = gg.scores := by
    intro rmfoods
    induction rmfoods with
    | nil => intro gg; rfl
    | cons z zs ihz => intro gg; rw [List.foldl_cons]; exact ihz _
  obtain ⟨h1, h2, h3, h4, h5⟩ := foodFold_spec s hnodup s.food_items [] [] s rfl rfl rfl
  have hrm : (s.food_items.foldl MultiSnakeGame.foodStep ([], [], s)).2.1 = [f] := by
    rw [h2, hfood]
    simp [heater]
  refine ⟨kv.1, hpred.1, ⟨kv.2, dictLookup_of_find? _ _ _ hkv hnodup, hpred.2⟩, ?_, ?_, ?_, ?_⟩
  · dsimp only [MultiSnakeGame._check_food_collisions]
    rw [h1, hfood]
    simp [heater]
  · dsimp only [MultiSnakeGame._check_food_collisions]
    rw [hrm, List.foldl_cons, List.foldl_nil]
    dsimp only [MultiSnakeGame.foodRemove]
    rw [h3, hfood]
    simp
  · dsimp only [MultiSnakeGame._check_food_collisions]
    rw [hscores]
    rw [h5 kv.1, hfood]
    simp [heater]
  · intro x hx
    dsimp only [MultiSnakeGame._check_food_collisions]
    rw [hscores]
    rw [h5 x, hfood]
    have hbeq : (eaterOf (headsOf s.snakes) s.active_snakes f.position == some x) = false := by
      rw [heater]; simpa using fun h => hx h.symm
    simp [List.filter_cons, hbeq]

/-- Witness for C7 at the concrete two-snakes-one-food state. -/
theorem c7_witness :
    ∃ e : String, e ∈ c7state.active_snakes ∧
      (∃ se : Snake, dictLookup c7state.snakes e = some se ∧
        se.get_head = some c7food.position) ∧
      (c7state._check_food_collisions).1 = [⟨e, .food, c7food.position, none⟩] ∧
      (c7state._check_food_collisions).2.food_items = [] ∧
      dictLookup (c7state._check_food_collisions).2.scores e
        = some ((dictLookup c7state.scores e).getD 0 + c7food.point_value) ∧
      (∀ x : String, x ≠ e →
        dictLookup (c7state._check_food_collisions).2.scores x
          = dictLookup c7state.scores x) :=
  c7_food_exclusive c7state c7food "a" "b"
    ({ Snake.create ⟨5, 5⟩ .right 3 with snake_id := "a" })
    ({ Snake.create ⟨5, 5⟩ .down 3 with snake_id := "b" })
    (by decide) rfl (by decide) (by decide) (by decide)
    (by decide) (by decide) (by decide) (by decide)

/-- C1, counterexample: on an 8x9 grid with ten obstacles, `find_path_astar`
from (2,5) to (7,7) returns a 12-cell path (11 steps), while `c1shorter` is
a valid 10-cell path (9 steps) between the same endpoints, so the returned
path does not have minimal length among valid paths. The in-place mutation
of heap entries in the relax branch corrupts the heap order, so a node can
be expanded with a non-final g_cost. -/
theorem c1_counterexample :
    PathFinder.find_path_astar c1grid ⟨2, 5⟩ ⟨7, 7⟩ c1obstacles 500 = some (some c1path) ∧
    c1path.length = 12 ∧
    isPath c1grid c1obstacles c1path ⟨2, 5⟩ ⟨7, 7⟩ = true ∧
    isPath c1grid c1obstacles c1shorter ⟨2, 5⟩ ⟨7, 7⟩ = true ∧
    c1shorter.length = 10 := by
  refine ⟨by decide, by decide, by decide, by decide, by decide⟩

/-! ### List and multiset bookkeeping for the heap model -/

lemma getD_set_self {α : Type _} (l : List α) (i : Nat) (a d : α) (h : i < l.length) :
    (l.set i a).getD i d = a := by
  induction l generalizing i with
  | nil => simp at h
  | cons x xs ih =>
    cases i with
    | zero => rfl
    | succ n =>
      rw [show ((x :: xs).set (n + 1) a) = x :: xs.set n a from rfl, List.getD_cons_succ]
      exact ih n (by simpa using h)

lemma getD_set_ne {α : Type _} (l : List α) (i j : Nat) (a d : α) (hij : i ≠ j) :
    (l.set i a).getD j d = l.getD j d := by
  induction l generalizing i j with
  | nil => simp
  | cons x xs ih =>
    cases i with
    | zero =>
      cases j with
      | zero => exact absurd rfl hij
      | succ m => rfl
    | succ n =>
      cases j with
      | zero => rfl
      | succ m =>
        rw [show ((x :: xs).set (n + 1) a) = x :: xs.set n a from rfl,
          List.getD_cons_succ, List.getD_cons_succ]
        exact ih n m (by omega)

lemma ms_set {α : Type _} (l : List α) (i : Nat) (b d : α) (h : i < l.length) :
    (↑(l.set i b) : Multiset α) + {l.getD i d} = (↑l : Multiset α) + {b} := by
  induction l generalizing i with
  | nil => simp at h
  | cons x xs ih =>
    cases i with
    | zero =>
      show (↑(b :: xs) : Multiset α) + {x} = (↑(x :: xs) : Multiset α) + {b}
      rw [← Multiset.cons_coe, ← Multiset.cons_coe, Multiset.cons_add, Multiset.cons_add,
        add_comm (↑xs : Multiset α) ({x} : Multiset α),
        add_comm (↑xs : Multiset α) ({b} : Multiset α),
        Multiset.singleton_add, Multiset.singleton_add, Multiset.cons_swap]
    | succ n =>
      show (↑(x :: xs.set n b) : Multiset α) + {xs.getD n d} = (↑(x :: xs) : Multiset α) + {b}
      rw [← Multiset.cons_coe, ← Multiset.cons_coe, Multiset.cons_add, Multiset.cons_add,
        ih n (by simpa using h)]

lemma ms_set_set {α : Type _} (l : List α) (i j : Nat) (b d : α) (hij : i ≠ j)
    (hi : i < l.length) (hj : j < l.length) :
    (↑((l.set i (l.getD j d)).set j b) : Multiset α) = ↑(l.set i b) := by
  have hj' : j < (l.set i (l.getD j d)).length := by simpa using hj
  have h1 := ms_set (l.set i (l.getD j d)) j b d hj'
  rw [getD_set_ne l i j _ d hij] at h1
  have h2 := ms_set l i (l.getD j d) d hi
  have h3 := ms_set l i b d hi
  have key : (↑((l.set i (l.getD j d)).set j b) : Multiset α) + ({l.getD j d} + {l.getD i d})
      = (↑(l.set i b) : Multiset α) + ({l.getD j d} + {l.getD i d}) := by
    calc (↑((l.set i (l.getD j d)).set j b) : Multiset α) + ({l.getD j d} + {l.getD i d})
        = ((↑((l.set i (l.getD j d)).set j b) : Multiset α) + {l.getD j d}) + {l.getD i d} := by
          rw [add_assoc]
      _ = ((↑(l.set i (l.getD j d)) : Multiset α) + {b}) + {l.getD i d} := by rw [h1]
      _ = ((↑(l.set i (l.getD j d)) : Multiset α) + {l.getD i d}) + {b} := by
          rw [add_assoc, add_assoc, add_comm ({b} : Multiset α)]
      _ = ((↑l : Multiset α) + {l.getD j d}) + {b} := by rw [h2]
      _ = ((↑l : Multiset α) + {b}) + {l.getD j d} := by
          rw [add_assoc, add_assoc, add_comm ({l.getD j d} : Multiset α)]
      _ = ((↑(l.set i b) : Multiset α) + {l.getD i d}) + {l.getD j d} := by rw [h3]
      _ = (↑(l.set i b) : Multiset α) + ({l.getD j d} + {l.getD i d}) := by
          rw [add_assoc, add_comm ({l.getD i d} : Multiset α)]
  exact add_right_cancel key

lemma set_append_length {α : Type _} (l : List α) (a b : α) :
    (l ++ [a]).set l.length b = l ++ [b] := by
  induction l with
  | nil => rfl
  | cons x xs ih =>
    show x :: ((xs ++ [a]).set xs.length b) = x :: (xs ++ [b])
    rw [ih]

/-! ### Heap operations preserve length and content -/

lemma heapSiftdownF_length (store : List PathNode) (fuel : Nat) :
    ∀ heap sp pos it, (heapSiftdownF store fuel heap sp pos it).length = heap.length := by
  induction fuel with
  | zero => intro heap sp pos it; simp [heapSiftdownF]
  | succ n ih =>
    intro heap sp pos it
    simp only [heapSiftdownF]
    split
    · split
      · rw [ih]; simp
      · simp
    · simp

lemma heapSiftdownF_ms (store : List PathNode) (fuel : Nat) :
    ∀ heap sp pos it, pos < heap.length →
      (↑(heapSiftdownF store fuel heap sp pos it) : Multiset Nat) = ↑(heap.set pos it) := by
  induction fuel with
  | zero => intro heap sp pos it _; rfl
  | succ n ih =>
    intro heap sp pos it hpos
    simp only [heapSiftdownF]
    split
    · next hsp =>
      split
      · have hpp : (pos - 1) / 2 < pos := by
          have := Nat.div_le_self (pos - 1) 2; omega
        rw [ih (heap.set pos (heap.getD ((pos - 1) / 2) 0)) sp ((pos - 1) / 2) it
          (by simpa using lt_trans hpp hpos)]
        exact ms_set_set heap pos ((pos - 1) / 2) it 0 (by omega) hpos (lt_trans hpp hpos)
      · rfl
    · rfl

lemma heapSiftupLoopF_length (store : List PathNode) (fuel : Nat) :
    ∀ heap endpos sp pos it,
      (heapSiftupLoopF store fuel heap endpos sp pos it).length = heap.length := by
  induction fuel with
  | zero =>
    intro heap endpos sp pos it
    show (heapSiftdown store (heap.set pos it) sp pos it).length = heap.length
    unfold heapSiftdown
    rw [heapSiftdownF_length]; simp
  | succ n ih =>
    intro heap endpos sp pos it
    simp only [heapSiftupLoopF]
    split
    · rw [ih]; simp
    · unfold heapSiftdown
      rw [heapSiftdownF_length]; simp

lemma heapSiftupLoopF_ms (store : List PathNode) (fuel : Nat) :
    ∀ heap endpos sp pos it, pos < heap.length → endpos ≤ heap.length →
      (↑(heapSiftupLoopF store fuel heap endpos sp pos it) : Multiset Nat)
        = ↑(heap.set pos it) := by
  induction fuel with
  | zero =>
    intro heap endpos sp pos it hpos _
    show (↑(heapSiftdown store (heap.set pos it) sp pos it) : Multiset Nat)
        = ↑(heap.set pos it)
    unfold heapSiftdown
    rw [heapSiftdownF_ms store _ _ sp pos it (by simpa using hpos), List.set_set]
  | succ n ih =>
    intro heap endpos sp pos it hpos hend
    simp only [heapSiftupLoopF]
    split
    · next hch =>
      by_cases hc : 2 * pos + 1 + 1 < endpos ∧
          ¬ nodeLt store (heap.getD (2 * pos + 1) 0) (heap.getD (2 * pos + 1 + 1) 0) = true
      · rw [if_pos hc]
        have hc2 : 2 * pos + 1 + 1 < heap.length := lt_of_lt_of_le hc.1 hend
        rw [ih (heap.set pos (heap.getD (2 * pos + 1 + 1) 0)) endpos sp (2 * pos + 1 + 1) it
          (by simpa using hc2) (by simpa using hend)]
        exact ms_set_set heap pos (2 * pos + 1 + 1) it 0 (by omega) hpos hc2
      · rw [if_neg hc]
        have hc2 : 2 * pos + 1 < heap.length := lt_of_lt_of_le hch hend
        rw [ih (heap.set pos (heap.getD (2 * pos + 1) 0)) endpos sp (2 * pos + 1) it
          (by simpa using hc2) (by simpa using hend)]
        exact ms_set_set heap pos (2 * pos + 1) it 0 (by omega) hpos hc2
    · unfold heapSiftdown
      rw [heapSiftdownF_ms store _ _ sp pos it (by simpa using hpos), List.set_set]

lemma heappush_ms (store : List PathNode) (heap : List Nat) (item : Nat) :
    (↑(heappush store heap item) : Multiset Nat) = item ::ₘ ↑heap := by
  unfold heappush heapSiftdown
  rw [heapSiftdownF_ms store heap.length (heap ++ [item]) 0 heap.length item (by simp),
    set_append_length, ← Multiset.coe_add, Multiset.coe_singleton, add_comm,
    Multiset.singleton_add]

lemma heappush_length (store : List PathNode) (heap : List Nat) (item : Nat) :
    (heappush store heap item).length = heap.length + 1 := by
  unfold heappush heapSiftdown
  rw [heapSiftdownF_length]; simp

lemma heappush_mem (store : List PathNode) (heap : List Nat) (item x : Nat) :
    x ∈ heappush store heap item ↔ x = item ∨ x ∈ heap := by
  have h : x ∈ heappush store heap item ↔ x ∈ (item ::ₘ (↑heap : Multiset Nat)) := by
    rw [← Multiset.mem_coe, heappush_ms]
  rw [h, Multiset.mem_cons, Multiset.mem_coe]

lemma heappop_empty (store : List PathNode) : heappop store [] = none := rfl

lemma heappop_concat (store : List PathNode) (l : List Nat) (a : Nat) :
    heappop store (l ++ [a]) =
      if l.isEmpty then some (a, l)
      else some (l.getD 0 0, heapSiftup store (l.set 0 a) 0) := by
  unfold heappop
  rw [List.getLast?_concat, List.dropLast_concat]

lemma heappop_some {store : List PathNode} {heap h' : List Nat} {r : Nat}
    (h : heappop store heap = some (r, h')) :
    (↑heap : Multiset Nat) = r ::ₘ ↑h' ∧ heap.length = h'.length + 1 := by
  rcases List.eq_nil_or_concat heap with rfl | ⟨l, a, rfl⟩
  · rw [heappop_empty] at h; exact absurd h (by simp)
  · rw [List.concat_eq_append, heappop_concat] at h
    by_cases he : l.isEmpty
    · rw [if_pos he] at h
      have hinj := Option.some.inj h
      have hr : r = a := (congrArg Prod.fst hinj).symm
      have hh' : h' = l := (congrArg Prod.snd hinj).symm
      have hl0 : l = [] := List.isEmpty_iff.mp he
      subst hr; subst hh'; subst hl0
      constructor
      · simp [List.concat_eq_append]
      · simp
    · rw [if_neg he] at h
      have hinj := Option.some.inj h
      have hr : r = l.getD 0 0 := (congrArg Prod.fst hinj).symm
      have hh' : h' = heapSiftup store (l.set 0 a) 0 := (congrArg Prod.snd hinj).symm
      have hlen : 0 < l.length := by
        cases l
        · simp at he
        · simp
      have h0 : (l.set 0 a).getD 0 0 = a := getD_set_self l 0 a 0 hlen
      have hms : (↑h' : Multiset Nat) = ↑(l.set 0 a) := by
        rw [hh']
        unfold heapSiftup
        rw [heapSiftupLoopF_ms store _ _ _ 0 0 _ (by simpa using hlen) (by simp),
          List.set_set, h0]
      have hlen' : h'.length = l.length := by
        rw [hh']
        unfold heapSiftup
        rw [heapSiftupLoopF_length]; simp
      constructor
      · have hset := ms_set l 0 a 0 hlen
        rw [List.concat_eq_append, hms, hr]
        calc (↑(l ++ [a]) : Multiset Nat)
            = (↑l : Multiset Nat) + {a} := by
              rw [← Multiset.coe_add, Multiset.coe_singleton]
          _ = (↑(l.set 0 a) : Multiset Nat) + {l.getD 0 0} := hset.symm
          _ = {l.getD 0 0} + (↑(l.set 0 a) : Multiset Nat) := add_comm _ _
          _ = l.getD 0 0 ::ₘ (↑(l.set 0 a) : Multiset Nat) := Multiset.singleton_add _ _
      · rw [hlen']; simp
  
lemma heappop_mem_fst {store : List PathNode} {heap h' : List Nat} {r : Nat}
    (h : heappop store heap = some (r, h')) : r ∈ heap := by
  have hms := (heappop_some h).1
  rw [← Multiset.mem_coe, hms]
  exact Multiset.mem_cons_self _ _

lemma heappop_mem_rest {store : List PathNode} {heap h' : List Nat} {r : Nat}
    (h : heappop store heap = some (r, h')) {x : Nat} (hx : x ∈ h') : x ∈ heap := by
  have hms := (heappop_some h).1
  rw [← Multiset.mem_coe, hms]
  exact Multiset.mem_cons_of_mem (by rwa [Multiset.mem_coe])

lemma heappop_mem_of_ne {store : List PathNode} {heap h' : List Nat} {r : Nat}
    (h : heappop store heap = some (r, h')) {x : Nat} (hx : x ∈ heap) (hxr : x ≠ r) :
    x ∈ h' := by
  have hms := (heappop_some h).1
  have hmem : x ∈ (r ::ₘ (↑h' : Multiset Nat)) := by
    rw [← hms, Multiset.mem_coe]; exact hx
  rcases Multiset.mem_cons.mp hmem with h1 | h2
  · exact absurd h1 hxr
  · rwa [Multiset.mem_coe] at h2


/-! ### The `all_nodes` dict: lookup over append -/

lemma lookupPos_append (l : List (SquareCoord × Nat)) (q : SquareCoord) (nid : Nat)
    (p : SquareCoord) :
    lookupPos (l ++ [(q, nid)]) p =
      match lookupPos l p with
      | some i => some i
      | none => if q = p then some nid else none := by
  induction l with
  | nil =>
    show lookupPos [(q, nid)] p = if q = p then some nid else none
    unfold lookupPos
    by_cases h : q = p
    · rw [if_pos h, List.find?_cons_of_pos _ (by simpa using h)]
      rfl
    · rw [if_neg h, List.find?_cons_of_neg _ (by simpa using h)]
      rfl
  | cons kv tl ih =>
    by_cases h : kv.1 = p
    · have e1 : lookupPos ((kv :: tl) ++ [(q, nid)]) p = some kv.2 := by
        unfold lookupPos
        rw [show (kv :: tl) ++ [(q, nid)] = kv :: (tl ++ [(q, nid)]) from rfl,
          List.find?_cons_of_pos _ (by simpa using h)]
        rfl
      have e2 : lookupPos (kv :: tl) p = some kv.2 := by
        unfold lookupPos
        rw [List.find?_cons_of_pos _ (by simpa using h)]
        rfl
      rw [e1, e2]
    · have e1 : lookupPos ((kv :: tl) ++ [(q, nid)]) p = lookupPos (tl ++ [(q, nid)]) p := by
        unfold lookupPos
        rw [show (kv :: tl) ++ [(q, nid)] = kv :: (tl ++ [(q, nid)]) from rfl,
          List.find?_cons_of_neg _ (by simpa using h)]
      have e2 : lookupPos (kv :: tl) p = lookupPos tl p := by
        unfold lookupPos
        rw [List.find?_cons_of_neg _ (by simpa using h)]
      rw [e1, e2, ih]

lemma lookupPos_append_old {l : List (SquareCoord × Nat)} {q : SquareCoord} {nid : Nat}
    {p : SquareCoord} {i : Nat} (h : lookupPos l p = some i) :
    lookupPos (l ++ [(q, nid)]) p = some i := by
  rw [lookupPos_append, h]

lemma lookupPos_append_new {l : List (SquareCoord × Nat)} {q : SquareCoord} {nid : Nat}
    (h : lookupPos l q = none) :
    lookupPos (l ++ [(q, nid)]) q = some nid := by
  rw [lookupPos_append, h]
  simp

lemma lookupPos_append_cases {l : List (SquareCoord × Nat)} {q : SquareCoord} {nid : Nat}
    {p : SquareCoord} {i : Nat} (h : lookupPos (l ++ [(q, nid)]) p = some i) :
    lookupPos l p = some i ∨ (p = q ∧ i = nid ∧ lookupPos l p = none) := by
  rw [lookupPos_append] at h
  split at h
  · next j hl => left; rw [hl]; exact h
  · next hl =>
    right
    by_cases hq : q = p
    · rw [if_pos hq] at h
      exact ⟨hq.symm, (Option.some.inj h).symm, hl⟩
    · rw [if_neg hq] at h
      exact absurd h (by simp)

lemma getD_append_len {α : Type _} (l : List α) (a d : α) :
    (l ++ [a]).getD l.length d = a := by
  induction l with
  | nil => rfl
  | cons x xs ih =>
    rw [show (x :: xs) ++ [a] = x :: (xs ++ [a]) from rfl,
      show (x :: xs).length = xs.length + 1 from rfl, List.getD_cons_succ]
    exact ih

/-! ### Grid neighbourhood facts -/

lemma mem_get_neighbors_iff (g : Grid) (c q : SquareCoord) :
    q ∈ g.get_neighbors c ↔
      g.is_valid_position q = true ∧ PathFinder._heuristic c q = 1 := by
  unfold Grid.get_neighbors
  rw [List.mem_filterMap]
  constructor
  · rintro ⟨d, hd, hq⟩
    by_cases hv : g.is_valid_position ⟨c.x + d.1, c.y + d.2⟩ = true
    · rw [if_pos hv] at hq
      obtain rfl := Option.some.inj hq
      refine ⟨hv, ?_⟩
      unfold PathFinder._heuristic
      fin_cases hd <;> simp
    · rw [if_neg hv] at hq
      exact absurd hq (by simp)
  · rintro ⟨hv, hh⟩
    unfold PathFinder._heuristic at hh
    have hcases : (q.x - c.x = 0 ∧ q.y - c.y = -1) ∨ (q.x - c.x = 0 ∧ q.y - c.y = 1) ∨
        (q.x - c.x = -1 ∧ q.y - c.y = 0) ∨ (q.x - c.x = 1 ∧ q.y - c.y = 0) := by
      rcases abs_cases (c.x - q.x) with ⟨e1, f1⟩ | ⟨e1, f1⟩ <;>
        rcases abs_cases (c.y - q.y) with ⟨e2, f2⟩ | ⟨e2, f2⟩ <;> omega
    have hqeq : ∀ dx dy : Int, q.x - c.x = dx → q.y - c.y = dy →
        (⟨c.x + dx, c.y + dy⟩ : SquareCoord) = q := by
      intro dx dy h1 h2
      have hx : c.x + dx = q.x := by omega
      have hy : c.y + dy = q.y := by omega
      calc (⟨c.x + dx, c.y + dy⟩ : SquareCoord) = ⟨q.x, q.y⟩ := by rw [hx, hy]
        _ = q := rfl
    rcases hcases with ⟨h1, h2⟩ | ⟨h1, h2⟩ | ⟨h1, h2⟩ | ⟨h1, h2⟩
    · refine ⟨((0 : Int), (-1 : Int)), by simp, ?_⟩
      rw [show ((⟨c.x + (0 : Int), c.y + (-1 : Int)⟩ : SquareCoord)) = q from hqeq 0 (-1) h1 h2]
      rw [if_pos hv]
    · refine ⟨((0 : Int), (1 : Int)), by simp, ?_⟩
      rw [show ((⟨c.x + (0 : Int), c.y + (1 : Int)⟩ : SquareCoord)) = q from hqeq 0 1 h1 h2]
      rw [if_pos hv]
    · refine ⟨((-1 : Int), (0 : Int)), by simp, ?_⟩
      rw [show ((⟨c.x + (-1 : Int), c.y + (0 : Int)⟩ : SquareCoord)) = q from hqeq (-1) 0 h1 h2]
      rw [if_pos hv]
    · refine ⟨((1 : Int), (0 : Int)), by simp, ?_⟩
      rw [show ((⟨c.x + (1 : Int), c.y + (0 : Int)⟩ : SquareCoord)) = q from hqeq 1 0 h1 h2]
      rw [if_pos hv]

lemma get_neighbors_length_le (g : Grid) (c : SquareCoord) :
    (g.get_neighbors c).length ≤ 4 := by
  unfold Grid.get_neighbors
  exact le_trans (List.length_filterMap_le _ _) (by simp)

lemma mem_validCells {g : Grid} {c : SquareCoord} :
    c ∈ validCells g ↔ g.is_valid_position c = true := by
  obtain ⟨cx, cy⟩ := c
  unfold validCells Grid.is_valid_position
  rw [Finset.mem_image]
  simp only [Bool.and_eq_true, decide_eq_true_eq]
  constructor
  · rintro ⟨xy, hxy, heq⟩
    rw [Finset.mem_product, Finset.mem_range, Finset.mem_range] at hxy
    obtain ⟨h1, h2⟩ := hxy
    have hx : (xy.1 : Int) = cx := congrArg SquareCoord.x heq
    have hy : (xy.2 : Int) = cy := congrArg SquareCoord.y heq
    refine ⟨⟨⟨?_, ?_⟩, ?_⟩, ?_⟩ <;> omega
  · rintro ⟨⟨⟨hx0, hxw⟩, hy0⟩, hyh⟩
    refine ⟨(cx.toNat, cy.toNat), ?_, ?_⟩
    · rw [Finset.mem_product, Finset.mem_range, Finset.mem_range]
      constructor <;> omega
    · show (⟨(cx.toNat : Int), (cy.toNat : Int)⟩ : SquareCoord) = ⟨cx, cy⟩
      have h1 : (cx.toNat : Int) = cx := by omega
      have h2 : (cy.toNat : Int) = cy := by omega
      rw [h1, h2]


/-! ### Facts about a single neighbour expansion -/

lemma heuristic_self (c : SquareCoord) : PathFinder._heuristic c c = 0 := by
  unfold PathFinder._heuristic
  simp

lemma neighbor_ne {g : Grid} {c q : SquareCoord} (h : q ∈ g.get_neighbors c) : q ≠ c := by
  rw [mem_get_neighbors_iff] at h
  intro e
  subst e
  have h2 := h.2
  rw [heuristic_self] at h2
  exact absurd h2 (by norm_num)

lemma neighbor_valid {g : Grid} {c q : SquareCoord} (h : q ∈ g.get_neighbors c) :
    g.is_valid_position q = true :=
  ((mem_get_neighbors_iff g c q).mp h).1

lemma expandFacts_rfl (st : AStarState) : ExpandFacts st st :=
  ⟨le_refl _, fun _ _ => rfl, fun _ _ => le_refl _, rfl, fun _ _ h => h,
    fun _ _ _ => rfl, fun _ hx => hx⟩

lemma expandFacts_trans {s1 s2 s3 : AStarState} (h12 : ExpandFacts s1 s2)
    (h23 : ExpandFacts s2 s3) : ExpandFacts s1 s3 := by
  refine ⟨le_trans h12.store_len h23.store_len, ?_, ?_, h23.closed_eq.trans h12.closed_eq,
    fun p i h => h23.nodes_stable p i (h12.nodes_stable p i h), ?_,
    fun x hx => h23.heap_keep x (h12.heap_keep x hx)⟩
  · intro i hi
    exact (h23.pos_stable i (lt_of_lt_of_le hi h12.store_len)).trans (h12.pos_stable i hi)
  · intro i hi
    exact le_trans (h23.g_mono i (lt_of_lt_of_le hi h12.store_len)) (h12.g_mono i hi)
  · intro i hi hc
    have h2 := h12.frozen i hi hc
    have hc2 : (s2.store.getD i default).position ∈ s2.closed := by
      rw [h2, h12.closed_eq]
      exact hc
    have h3 := h23.frozen i (lt_of_lt_of_le hi h12.store_len) hc2
    rw [h3, h2]

lemma qdone_mono {obstacles : Finset SquareCoord} {cid : Nat} {st st' : AStarState}
    {q : SquareCoord} (hq : QDone obstacles cid st q) (hf : ExpandFacts st st')
    (hcid : cid < st.store.length)
    (hcc : (st.store.getD cid default).position ∈ st.closed) :
    QDone obstacles cid st' q := by
  rcases hq with h | h | ⟨j, hj, hlk, hle⟩
  · exact Or.inl h
  · exact Or.inr (Or.inl (by rw [hf.closed_eq]; exact h))
  · refine Or.inr (Or.inr ⟨j, lt_of_lt_of_le hj hf.store_len, hf.nodes_stable q j hlk, ?_⟩)
    have hfz := hf.frozen cid hcid hcc
    calc (st'.store.getD j default).g_cost
        ≤ (st.store.getD j default).g_cost := hf.g_mono j hj
      _ ≤ (st.store.getD cid default).g_cost + 1 := hle
      _ = (st'.store.getD cid default).g_cost + 1 := by rw [hfz]

lemma expandNeighbor_skip {obstacles : Finset SquareCoord} {goal : SquareCoord} {cid : Nat}
    {st : AStarState} {q : SquareCoord} (hskip : q ∈ st.closed ∨ q ∈ obstacles) :
    expandNeighbor obstacles goal cid st q = st := by
  unfold expandNeighbor
  rw [if_pos hskip]

lemma expandNeighbor_new {obstacles : Finset SquareCoord} {goal : SquareCoord} {cid : Nat}
    {st : AStarState} {q : SquareCoord} (hskip : ¬(q ∈ st.closed ∨ q ∈ obstacles))
    (hlk : lookupPos st.all_nodes q = none) :
    expandNeighbor obstacles goal cid st q =
      { store := st.store ++ [⟨q, (st.store.getD cid default).g_cost + 1,
          PathFinder._heuristic q goal,
          (st.store.getD cid default).g_cost + 1 + PathFinder._heuristic q goal, some cid⟩]
        heap := heappush (st.store ++ [⟨q, (st.store.getD cid default).g_cost + 1,
          PathFinder._heuristic q goal,
          (st.store.getD cid default).g_cost + 1 + PathFinder._heuristic q goal, some cid⟩])
          st.heap st.store.length
        closed := st.closed
        all_nodes := st.all_nodes ++ [(q, st.store.length)] } := by
  unfold expandNeighbor
  rw [if_neg hskip]
  simp only [hlk]

lemma expandNeighbor_relax {obstacles : Finset SquareCoord} {goal : SquareCoord} {cid : Nat}
    {st : AStarState} {q : SquareCoord} {nid : Nat}
    (hskip : ¬(q ∈ st.closed ∨ q ∈ obstacles))
    (hlk : lookupPos st.all_nodes q = some nid)
    (hrel : (st.store.getD cid default).g_cost + 1 < (st.store.getD nid default).g_cost) :
    expandNeighbor obstacles goal cid st q =
      { st with
        store := st.store.set nid { st.store.getD nid default with
          g_cost := (st.store.getD cid default).g_cost + 1,
          f_cost := (st.store.getD cid default).g_cost + 1 + PathFinder._heuristic q goal,
          parent := some cid }
        heap := heappush (st.store.set nid { st.store.getD nid default with
          g_cost := (st.store.getD cid default).g_cost + 1,
          f_cost := (st.store.getD cid default).g_cost + 1 + PathFinder._heuristic q goal,
          parent := some cid }) st.heap nid } := by
  unfold expandNeighbor
  rw [if_neg hskip]
  simp only [hlk]
  rw [if_pos hrel]

lemma expandNeighbor_norelax {obstacles : Finset SquareCoord} {goal : SquareCoord} {cid : Nat}
    {st : AStarState} {q : SquareCoord} {nid : Nat}
    (hskip : ¬(q ∈ st.closed ∨ q ∈ obstacles))
    (hlk : lookupPos st.all_nodes q = some nid)
    (hrel : ¬ (st.store.getD cid default).g_cost + 1 < (st.store.getD nid default).g_cost) :
    expandNeighbor obstacles goal cid st q = st := by
  unfold expandNeighbor
  rw [if_neg hskip]
  simp only [hlk]
  rw [if_neg hrel]


lemma expand_step_new {grid : Grid} {obstacles : Finset SquareCoord}
    {start goal : SquareCoord} {pend : Finset SquareCoord} {cid : Nat} {st : AStarState}
    {q : SquareCoord} (hInv : AStarInvP grid obstacles start goal pend st)
    (hcid : cid < st.store.length)
    (hcc : (st.store.getD cid default).position ∈ st.closed)
    (hq : q ∈ grid.get_neighbors (st.store.getD cid default).position)
    (hskip : ¬(q ∈ st.closed ∨ q ∈ obstacles))
    (hlk : lookupPos st.all_nodes q = none) :
    AStarInvP grid obstacles start goal pend (expandNeighbor obstacles goal cid st q) ∧
    ExpandFacts st (expandNeighbor obstacles goal cid st q) ∧
    (expandNeighbor obstacles goal cid st q).heap.length ≤ st.heap.length + 1 ∧
    QDone obstacles cid (expandNeighbor obstacles goal cid st q) q := by
  obtain ⟨hqc, hqo⟩ := not_or.mp hskip
  rw [expandNeighbor_new hskip hlk]
  dsimp only
  set nn : PathNode := ⟨q, (st.store.getD cid default).g_cost + 1,
    PathFinder._heuristic q goal,
    (st.store.getD cid default).g_cost + 1 + PathFinder._heuristic q goal, some cid⟩ with hnn
  have d1 : ∀ i, i < st.store.length →
      (st.store ++ [nn]).getD i default = st.store.getD i default :=
    fun i hi => List.getD_append _ _ _ i hi
  have d2 : (st.store ++ [nn]).getD st.store.length default = nn := getD_append_len _ _ _
  have dlen : (st.store ++ [nn]).length = st.store.length + 1 := by simp
  have d2pos : ((st.store ++ [nn]).getD st.store.length default).position = q := by rw [d2]
  have d2g : ((st.store ++ [nn]).getD st.store.length default).g_cost
      = (st.store.getD cid default).g_cost + 1 := by rw [d2]
  have d2par : ((st.store ++ [nn]).getD st.store.length default).parent = some cid := by
    rw [d2]
  have hqne : q ≠ (st.store.getD cid default).position := neighbor_ne hq
  have hgcid : (st.store.getD cid default).g_cost < (st.closed.card : Int) :=
    hInv.g_card_closed cid hcid hcc
  refine ⟨⟨hInv.start_valid, hInv.start_free, ?_, ?_, ?_, ?_, ?_, ?_, ?_, ?_, ?_, ?_,
      hInv.goal_open, ?_, ?_, ?_, ?_⟩, ⟨?_, ?_, ?_, rfl, ?_, ?_, ?_⟩, ?_, ?_⟩
  · -- root_ok
    intro i hi hpar
    rw [dlen] at hi
    rcases Nat.lt_succ_iff_lt_or_eq.mp hi with hiL | rfl
    · rw [d1 i hiL] at hpar ⊢
      exact hInv.root_ok i hiL hpar
    · rw [d2par] at hpar
      exact absurd hpar (by simp)
  · -- parent_ok
    intro i hi j hpar
    rw [dlen] at hi
    rcases Nat.lt_succ_iff_lt_or_eq.mp hi with hiL | rfl
    · rw [d1 i hiL] at hpar ⊢
      obtain ⟨hjL, hg, hadj, hobs, hcl⟩ := hInv.parent_ok i hiL j hpar
      refine ⟨by rw [dlen]; omega, ?_, ?_, hobs, ?_⟩
      · rw [d1 j hjL]
        exact hg
      · rw [d1 j hjL]
        exact hadj
      · rw [d1 j hjL]
        exact hcl
    · rw [d2par] at hpar
      have hj : cid = j := Option.some.inj hpar
      subst hj
      refine ⟨by rw [dlen]; omega, ?_, ?_, ?_, ?_⟩
      · rw [d1 cid hcid, d2g]
      · rw [d1 cid hcid, d2pos]
        exact hq
      · rw [d2pos]
        exact hqo
      · rw [d1 cid hcid]
        exact hcc
  · -- lookup_ok
    intro p i hlkp
    rcases lookupPos_append_cases hlkp with hold | ⟨rfl, rfl, _⟩
    · obtain ⟨hiL, hpos⟩ := hInv.lookup_ok p i hold
      refine ⟨by rw [dlen]; omega, ?_⟩
      rw [d1 i hiL]
      exact hpos
    · exact ⟨by rw [dlen]; omega, d2pos⟩
  · -- store_reg
    intro i hi
    rw [dlen] at hi
    rcases Nat.lt_succ_iff_lt_or_eq.mp hi with hiL | rfl
    · rw [d1 i hiL]
      exact lookupPos_append_old (hInv.store_reg i hiL)
    · rw [d2pos]
      exact lookupPos_append_new hlk
  · -- heap_bound
    intro x hx
    rcases (heappush_mem _ _ _ _).mp hx with rfl | hxold
    · rw [dlen]; omega
    · have := hInv.heap_bound x hxold
      rw [dlen]; omega
  · -- open_entry
    intro p i hlkp hpc
    rcases lookupPos_append_cases hlkp with hold | ⟨rfl, rfl, _⟩
    · exact (heappush_mem _ _ _ _).mpr (Or.inr (hInv.open_entry p i hold hpc))
    · exact (heappush_mem _ _ _ _).mpr (Or.inl rfl)
  · -- closed_nbrs
    intro p hp hpend q' hq' hq'o
    obtain ⟨j, hj⟩ := hInv.closed_nbrs p hp hpend q' hq' hq'o
    exact ⟨j, lookupPos_append_old hj⟩
  · -- closed_disc
    intro p hp
    obtain ⟨i, hi⟩ := hInv.closed_disc p hp
    exact ⟨i, lookupPos_append_old hi⟩
  · -- closed_valid
    exact hInv.closed_valid
  · -- gbound
    intro p i q' j hp hpend hlkp hq' hq'o hq'c hlkq'
    rcases lookupPos_append_cases hlkp with holdp | ⟨heqp, _, _⟩
    · rcases lookupPos_append_cases hlkq' with holdq | ⟨heqq, _, hnone⟩
      · have hiL := (hInv.lookup_ok p i holdp).1
        have hjL := (hInv.lookup_ok q' j holdq).1
        rw [d1 i hiL, d1 j hjL]
        exact hInv.gbound p i q' j hp hpend holdp hq' hq'o hq'c holdq
      · obtain ⟨j0, hj0⟩ := hInv.closed_nbrs p hp hpend q' hq' hq'o
        rw [hnone] at hj0
        exact absurd hj0 (by simp)
    · rw [heqp] at hp
      exact absurd hp hqc
  · -- start_disc
    intro hnone
    cases hs : lookupPos st.all_nodes start with
    | none => exact hInv.start_disc hs
    | some i => rw [lookupPos_append_old hs] at hnone; exact absurd hnone (by simp)
  · -- g_nonneg
    intro i hi
    rw [dlen] at hi
    rcases Nat.lt_succ_iff_lt_or_eq.mp hi with hiL | rfl
    · rw [d1 i hiL]
      exact hInv.g_nonneg i hiL
    · rw [d2g]
      have := hInv.g_nonneg cid hcid
      omega
  · -- g_card
    intro i hi
    rw [dlen] at hi
    rcases Nat.lt_succ_iff_lt_or_eq.mp hi with hiL | rfl
    · rw [d1 i hiL]
      exact hInv.g_card i hiL
    · rw [d2g]
      show (st.store.getD cid default).g_cost + 1 ≤ (st.closed.card : Int)
      omega
  · -- g_card_closed
    intro i hi hic
    rw [dlen] at hi
    rcases Nat.lt_succ_iff_lt_or_eq.mp hi with hiL | rfl
    · rw [d1 i hiL] at hic ⊢
      exact hInv.g_card_closed i hiL hic
    · rw [d2pos] at hic
      exact absurd hic hqc
  · -- ExpandFacts.store_len
    rw [dlen]; omega
  · -- pos_stable
    intro i hi
    rw [d1 i hi]
  · -- g_mono
    intro i hi
    rw [d1 i hi]
  · -- nodes_stable
    intro p i h
    exact lookupPos_append_old h
  · -- frozen
    intro i hi _
    rw [d1 i hi]
  · -- heap_keep
    intro x hx
    exact (heappush_mem _ _ _ _).mpr (Or.inr hx)
  · -- heap length
    rw [heappush_length]
  · -- QDone
    refine Or.inr (Or.inr ⟨st.store.length, by rw [dlen]; omega, lookupPos_append_new hlk, ?_⟩)
    rw [d2g, d1 cid hcid]


lemma expand_step_relax {grid : Grid} {obstacles : Finset SquareCoord}
    {start goal : SquareCoord} {pend : Finset SquareCoord} {cid : Nat} {st : AStarState}
    {q : SquareCoord} {nid : Nat} (hInv : AStarInvP grid obstacles start goal pend st)
    (hcid : cid < st.store.length)
    (hcc : (st.store.getD cid default).position ∈ st.closed)
    (hq : q ∈ grid.get_neighbors (st.store.getD cid default).position)
    (hskip : ¬(q ∈ st.closed ∨ q ∈ obstacles))
    (hlk : lookupPos st.all_nodes q = some nid)
    (hrel : (st.store.getD cid default).g_cost + 1 < (st.store.getD nid default).g_cost) :
    AStarInvP grid obstacles start goal pend (expandNeighbor obstacles goal cid st q) ∧
    ExpandFacts st (expandNeighbor obstacles goal cid st q) ∧
    (expandNeighbor obstacles goal cid st q).heap.length ≤ st.heap.length + 1 ∧
    QDone obstacles cid (expandNeighbor obstacles goal cid st q) q := by
  obtain ⟨hqc, hqo⟩ := not_or.mp hskip
  rw [expandNeighbor_relax hskip hlk hrel]
  dsimp only
  set nv : PathNode := { st.store.getD nid default with
    g_cost := (st.store.getD cid default).g_cost + 1,
    f_cost := (st.store.getD cid default).g_cost + 1 + PathFinder._heuristic q goal,
    parent := some cid } with hnv
  have hnidL : nid < st.store.length := (hInv.lookup_ok q nid hlk).1
  have hpos : (st.store.getD nid default).position = q := (hInv.lookup_ok q nid hlk).2
  have hqne : q ≠ (st.store.getD cid default).position := neighbor_ne hq
  have hnidcid : nid ≠ cid := by
    intro e
    apply hqne
    rw [← e]
    exact hpos.symm
  have e1 : ∀ i, i ≠ nid → (st.store.set nid nv).getD i default = st.store.getD i default :=
    fun i h => getD_set_ne _ nid i _ _ (fun e => h e.symm)
  have e2 : (st.store.set nid nv).getD nid default = nv := getD_set_self _ nid _ _ hnidL
  have elen : (st.store.set nid nv).length = st.store.length := List.length_set _ _ _
  have epos : ∀ i, ((st.store.set nid nv).getD i default).position
      = (st.store.getD i default).position := by
    intro i
    by_cases h : i = nid
    · subst h
      rw [e2]
    · rw [e1 i h]
  have e2g : ((st.store.set nid nv).getD nid default).g_cost
      = (st.store.getD cid default).g_cost + 1 := by rw [e2]
  have e2par : ((st.store.set nid nv).getD nid default).parent = some cid := by rw [e2]
  have egle : ∀ i, ((st.store.set nid nv).getD i default).g_cost
      ≤ (st.store.getD i default).g_cost := by
    intro i
    by_cases h : i = nid
    · subst h
      rw [e2g]
      exact le_of_lt hrel
    · rw [e1 i h]
  have hnposc : (st.store.getD nid default).position ∉ st.closed := by
    rw [hpos]
    exact hqc
  have hgcid : (st.store.getD cid default).g_cost < (st.closed.card : Int) :=
    hInv.g_card_closed cid hcid hcc
  refine ⟨⟨hInv.start_valid, hInv.start_free, ?_, ?_, ?_, ?_, ?_, ?_, ?_, ?_, ?_, ?_,
      hInv.goal_open, hInv.start_disc, ?_, ?_, ?_⟩, ⟨?_, ?_, ?_, rfl, fun _ _ h => h, ?_, ?_⟩,
      ?_, ?_⟩
  · -- root_ok
    intro i hi hpar
    rw [elen] at hi
    by_cases h : i = nid
    · subst h
      rw [e2par] at hpar
      exact absurd hpar (by simp)
    · rw [e1 i h] at hpar ⊢
      exact hInv.root_ok i hi hpar
  · -- parent_ok
    intro i hi j hpar
    rw [elen] at hi
    by_cases h : i = nid
    · subst h
      rw [e2par] at hpar
      have hj : cid = j := Option.some.inj hpar
      subst hj
      refine ⟨by rw [elen]; omega, ?_, ?_, ?_, ?_⟩
      · rw [e2g, e1 cid (Ne.symm hnidcid)]
      · rw [epos i, hpos, epos cid]
        exact hq
      · rw [epos i, hpos]
        exact hqo
      · rw [epos cid]
        exact hcc
    · rw [e1 i h] at hpar
      obtain ⟨hjL, hg, hadj, hobs, hcl⟩ := hInv.parent_ok i hi j hpar
      have hjne : j ≠ nid := by
        intro e
        rw [e] at hcl
        exact hnposc hcl
      refine ⟨by rw [elen]; omega, ?_, ?_, ?_, ?_⟩
      · rw [e1 j hjne, e1 i h]
        exact hg
      · rw [e1 j hjne, e1 i h]
        exact hadj
      · rw [e1 i h]
        exact hobs
      · rw [e1 j hjne]
        exact hcl
  · -- lookup_ok
    intro p i hlkp
    obtain ⟨hiL, hposp⟩ := hInv.lookup_ok p i hlkp
    refine ⟨by rw [elen]; omega, ?_⟩
    rw [epos i]
    exact hposp
  · -- store_reg
    intro i hi
    rw [elen] at hi
    rw [epos i]
    exact hInv.store_reg i hi
  · -- heap_bound
    intro x hx
    rcases (heappush_mem _ _ _ _).mp hx with rfl | hxold
    · rw [elen]
      exact hnidL
    · rw [elen]
      exact hInv.heap_bound x hxold
  · -- open_entry
    intro p i hlkp hpc
    exact (heappush_mem _ _ _ _).mpr (Or.inr (hInv.open_entry p i hlkp hpc))
  · -- closed_nbrs
    exact hInv.closed_nbrs
  · -- closed_disc
    exact hInv.closed_disc
  · -- closed_valid
    exact hInv.closed_valid
  · -- gbound
    intro p i q' j hp hpend hlkp hq'n hq'o hq'c hlkq'
    have hine : i ≠ nid := by
      intro e
      subst e
      have hpq : p = q := by
        rw [← (hInv.lookup_ok p i hlkp).2, hpos]
      rw [hpq] at hp
      exact hqc hp
    calc ((st.store.set nid nv).getD j default).g_cost
        ≤ (st.store.getD j default).g_cost := egle j
      _ ≤ (st.store.getD i default).g_cost + 1 :=
          hInv.gbound p i q' j hp hpend hlkp hq'n hq'o hq'c hlkq'
      _ = ((st.store.set nid nv).getD i default).g_cost + 1 := by rw [e1 i hine]
  · -- g_nonneg
    intro i hi
    rw [elen] at hi
    by_cases h : i = nid
    · subst h
      rw [e2g]
      have := hInv.g_nonneg cid hcid
      omega
    · rw [e1 i h]
      exact hInv.g_nonneg i hi
  · -- g_card
    intro i hi
    rw [elen] at hi
    by_cases h : i = nid
    · subst h
      rw [e2g]
      show (st.store.getD cid default).g_cost + 1 ≤ (st.closed.card : Int)
      omega
    · rw [e1 i h]
      show (st.store.getD i default).g_cost ≤ (st.closed.card : Int)
      exact hInv.g_card i hi
  · -- g_card_closed
    intro i hi hic
    rw [elen] at hi
    by_cases h : i = nid
    · subst h
      rw [epos i, hpos] at hic
      exact absurd hic hqc
    · rw [epos i] at hic
      rw [e1 i h]
      show (st.store.getD i default).g_cost < (st.closed.card : Int)
      exact hInv.g_card_closed i hi hic
  · -- store_len
    rw [elen]
  · -- pos_stable
    intro i _
    exact epos i
  · -- g_mono
    intro i _
    exact egle i
  · -- frozen
    intro i hi hcl
    have hine : i ≠ nid := by
      intro e
      subst e
      exact hnposc hcl
    exact e1 i hine
  · -- heap_keep
    intro x hx
    exact (heappush_mem _ _ _ _).mpr (Or.inr hx)
  · -- heap length
    rw [heappush_length]
  · -- QDone
    refine Or.inr (Or.inr ⟨nid, ?_, hlk, ?_⟩)
    · rw [elen]
      exact hnidL
    · rw [e2g, e1 cid (Ne.symm hnidcid)]

lemma expand_step {grid : Grid} {obstacles : Finset SquareCoord}
    {start goal : SquareCoord} {pend : Finset SquareCoord} {cid : Nat} {st : AStarState}
    {q : SquareCoord} (hInv : AStarInvP grid obstacles start goal pend st)
    (hcid : cid < st.store.length)
    (hcc : (st.store.getD cid default).position ∈ st.closed)
    (hq : q ∈ grid.get_neighbors (st.store.getD cid default).position) :
    AStarInvP grid obstacles start goal pend (expandNeighbor obstacles goal cid st q) ∧
    ExpandFacts st (expandNeighbor obstacles goal cid st q) ∧
    (expandNeighbor obstacles goal cid st q).heap.length ≤ st.heap.length + 1 ∧
    QDone obstacles cid (expandNeighbor obstacles goal cid st q) q := by
  by_cases hskip : q ∈ st.closed ∨ q ∈ obstacles
  · rw [expandNeighbor_skip hskip]
    refine ⟨hInv, expandFacts_rfl st, Nat.le_succ _, ?_⟩
    rcases hskip with h | h
    · exact Or.inr (Or.inl h)
    · exact Or.inl h
  · cases hlk : lookupPos st.all_nodes q with
    | none => exact expand_step_new hInv hcid hcc hq hskip hlk
    | some nid =>
      by_cases hrel : (st.store.getD cid default).g_cost + 1
          < (st.store.getD nid default).g_cost
      · exact expand_step_relax hInv hcid hcc hq hskip hlk hrel
      · rw [expandNeighbor_norelax hskip hlk hrel]
        exact ⟨hInv, expandFacts_rfl st, Nat.le_succ _,
          Or.inr (Or.inr ⟨nid, (hInv.lookup_ok q nid hlk).1, hlk, le_of_not_lt hrel⟩)⟩


lemma expand_fold {grid : Grid} {obstacles : Finset SquareCoord}
    {start goal : SquareCoord} {pend : Finset SquareCoord} {cid : Nat}
    (zs : List SquareCoord) :
    ∀ st : AStarState, AStarInvP grid obstacles start goal pend st →
      cid < st.store.length →
      (st.store.getD cid default).position ∈ st.closed →
      (∀ z ∈ zs, z ∈ grid.get_neighbors (st.store.getD cid default).position) →
      AStarInvP grid obstacles start goal pend
          (zs.foldl (expandNeighbor obstacles goal cid) st) ∧
        ExpandFacts st (zs.foldl (expandNeighbor obstacles goal cid) st) ∧
        (zs.foldl (expandNeighbor obstacles goal cid) st).heap.length
          ≤ st.heap.length + zs.length ∧
        ∀ z ∈ zs, QDone obstacles cid (zs.foldl (expandNeighbor obstacles goal cid) st) z := by
  induction zs with
  | nil =>
    intro st hInv _ _ _
    exact ⟨hInv, expandFacts_rfl st, by simp, by simp⟩
  | cons z tl ih =>
    intro st hInv hcid hcc hzs
    simp only [List.foldl_cons]
    obtain ⟨hI1, hF1, hL1, hQ1⟩ := expand_step hInv hcid hcc (hzs z (by simp))
    have hcid1 : cid < (expandNeighbor obstacles goal cid st z).store.length :=
      lt_of_lt_of_le hcid hF1.store_len
    have hcc1 : ((expandNeighbor obstacles goal cid st z).store.getD cid default).position
        ∈ (expandNeighbor obstacles goal cid st z).closed := by
      rw [hF1.pos_stable cid hcid, hF1.closed_eq]
      exact hcc
    have hzs1 : ∀ z' ∈ tl, z' ∈ grid.get_neighbors
        ((expandNeighbor obstacles goal cid st z).store.getD cid default).position := by
      intro z' hz'
      rw [hF1.pos_stable cid hcid]
      exact hzs z' (by simp [hz'])
    obtain ⟨hI2, hF2, hL2, hQ2⟩ :=
      ih (expandNeighbor obstacles goal cid st z) hI1 hcid1 hcc1 hzs1
    refine ⟨hI2, expandFacts_trans hF1 hF2, ?_, ?_⟩
    · have hlc : (z :: tl).length = tl.length + 1 := by simp
      rw [hlc]
      omega
    · intro z' hz'
      rcases List.mem_cons.mp hz' with rfl | hz'tl
      · exact qdone_mono hQ1 hF2 hcid1 hcc1
      · exact hQ2 z' hz'tl

lemma inv_pos_valid {grid : Grid} {obstacles : Finset SquareCoord}
    {start goal : SquareCoord} {pend : Finset SquareCoord} {st : AStarState}
    (hInv : AStarInvP grid obstacles start goal pend st) :
    ∀ i, i < st.store.length →
      grid.is_valid_position (st.store.getD i default).position = true := by
  intro i hi
  cases hpar : (st.store.getD i default).parent with
  | none => rw [(hInv.root_ok i hi hpar).1]; exact hInv.start_valid
  | some j => exact neighbor_valid (hInv.parent_ok i hi j hpar).2.2.1

lemma inv_pos_free {grid : Grid} {obstacles : Finset SquareCoord}
    {start goal : SquareCoord} {pend : Finset SquareCoord} {st : AStarState}
    (hInv : AStarInvP grid obstacles start goal pend st) :
    ∀ i, i < st.store.length → (st.store.getD i default).position ∉ obstacles := by
  intro i hi
  cases hpar : (st.store.getD i default).parent with
  | none => rw [(hInv.root_ok i hi hpar).1]; exact hInv.start_free
  | some j => exact (hInv.parent_ok i hi j hpar).2.2.2.1

lemma close_step {grid : Grid} {obstacles : Finset SquareCoord}
    {start goal : SquareCoord} {st : AStarState} {cid : Nat} {heap1 : List Nat}
    (hInv : AStarInv grid obstacles start goal st)
    (hpop : heappop st.store st.heap = some (cid, heap1))
    (hgoal : (st.store.getD cid default).position ≠ goal) :
    AStarInvP grid obstacles start goal {(st.store.getD cid default).position}
      { st with heap := heap1, closed := insert (st.store.getD cid default).position st.closed }
    ∧ cid < st.store.length := by
  have hcidheap : cid ∈ st.heap := heappop_mem_fst hpop
  have hcidL : cid < st.store.length := hInv.heap_bound cid hcidheap
  have hreg : lookupPos st.all_nodes (st.store.getD cid default).position = some cid :=
    hInv.store_reg cid hcidL
  refine ⟨⟨hInv.start_valid, hInv.start_free, hInv.root_ok, ?_, hInv.lookup_ok,
    hInv.store_reg, ?_, ?_, ?_, ?_, ?_, ?_, ?_, hInv.start_disc, hInv.g_nonneg, ?_, ?_⟩,
    hcidL⟩
  · -- parent_ok
    intro i hi j hp
    obtain ⟨h1, h2, h3, h4, h5⟩ := hInv.parent_ok i hi j hp
    exact ⟨h1, h2, h3, h4, Finset.mem_insert_of_mem h5⟩
  · -- heap_bound
    intro x hx
    exact hInv.heap_bound x (heappop_mem_rest hpop hx)
  · -- open_entry
    intro p' i hlk hpc
    rw [Finset.mem_insert, not_or] at hpc
    obtain ⟨hpp, hpc'⟩ := hpc
    have hi := hInv.open_entry p' i hlk hpc'
    have hine : i ≠ cid := by
      intro e
      subst e
      exact hpp ((hInv.lookup_ok p' i hlk).2.symm)
    exact heappop_mem_of_ne hpop hi hine
  · -- closed_nbrs
    intro p' hp' hpend q hqn hqo
    rw [Finset.mem_singleton] at hpend
    rcases Finset.mem_insert.mp hp' with he | hmem
    · exact absurd he hpend
    · exact hInv.closed_nbrs p' hmem (Finset.not_mem_empty p') q hqn hqo
  · -- closed_disc
    intro p' hp'
    rcases Finset.mem_insert.mp hp' with rfl | hmem
    · exact ⟨cid, hreg⟩
    · exact hInv.closed_disc p' hmem
  · -- closed_valid
    intro p' hp'
    rcases Finset.mem_insert.mp hp' with rfl | hmem
    · exact inv_pos_valid hInv cid hcidL
    · exact hInv.closed_valid p' hmem
  · -- gbound
    intro p' i q j hp' hpend hlkp hqn hqo hqc hlkq
    rw [Finset.mem_singleton] at hpend
    rcases Finset.mem_insert.mp hp' with he | hmem
    · exact absurd he hpend
    · have hqc' : q ∉ st.closed := fun hmem2 => hqc (Finset.mem_insert_of_mem hmem2)
      exact hInv.gbound p' i q j hmem (Finset.not_mem_empty p') hlkp hqn hqo hqc' hlkq
  · -- goal_open
    intro hg
    rcases Finset.mem_insert.mp hg with he | hmem
    · exact hgoal he.symm
    · exact hInv.goal_open hmem
  · -- g_card
    intro i hi
    have h1 := hInv.g_card i hi
    have h2 : st.closed.card ≤ (insert (st.store.getD cid default).position st.closed).card :=
      Finset.card_le_card (Finset.subset_insert _ _)
    have h3 : (st.closed.card : Int)
        ≤ ((insert (st.store.getD cid default).position st.closed).card : Int) := by
      exact_mod_cast h2
    exact le_trans h1 h3
  · -- g_card_closed
    intro i hi hic
    have h2 : st.closed.card ≤ (insert (st.store.getD cid default).position st.closed).card :=
      Finset.card_le_card (Finset.subset_insert _ _)
    rcases Finset.mem_insert.mp hic with he | hmem
    · -- position i = position cid, hence i = cid
      have hregi := hInv.store_reg i hi
      rw [he] at hregi
      rw [hreg] at hregi
      have hicid : i = cid := (Option.some.inj hregi).symm
      subst hicid
      by_cases hpc : (st.store.getD i default).position ∈ st.closed
      · have := hInv.g_card_closed i hi hpc
        show (st.store.getD i default).g_cost
            < ((insert (st.store.getD i default).position st.closed).card : Int)
        omega
      · have hcard : (insert (st.store.getD i default).position st.closed).card
            = st.closed.card + 1 := Finset.card_insert_of_not_mem hpc
        have := hInv.g_card i hi
        rw [hcard]
        push_cast
        omega
    · have := hInv.g_card_closed i hi hmem
      show (st.store.getD i default).g_cost
          < ((insert (st.store.getD cid default).position st.closed).card : Int)
      omega

lemma close_finish {grid : Grid} {obstacles : Finset SquareCoord}
    {start goal p : SquareCoord} {st2 : AStarState} {cid : Nat}
    (hInv : AStarInvP grid obstacles start goal {p} st2)
    (hcid : cid < st2.store.length)
    (hpos : (st2.store.getD cid default).position = p)
    (hq : ∀ q ∈ grid.get_neighbors p, QDone obstacles cid st2 q) :
    AStarInv grid obstacles start goal st2 := by
  refine ⟨hInv.start_valid, hInv.start_free, hInv.root_ok, hInv.parent_ok, hInv.lookup_ok,
    hInv.store_reg, hInv.heap_bound, hInv.open_entry, ?_, hInv.closed_disc,
    hInv.closed_valid, ?_, hInv.goal_open, hInv.start_disc, hInv.g_nonneg, hInv.g_card,
    hInv.g_card_closed⟩
  · -- closed_nbrs
    intro p' hp' _ q hqn hqo
    by_cases hpp : p' = p
    · rcases hq q (hpp ▸ hqn) with h | h | ⟨j, _, hlk, _⟩
      · exact absurd h hqo
      · exact hInv.closed_disc q h
      · exact ⟨j, hlk⟩
    · exact hInv.closed_nbrs p' hp' (by simp [hpp]) q hqn hqo
  · -- gbound
    intro p' i q j hp' _ hlkp hqn hqo hqc hlkq
    by_cases hpp : p' = p
    · rcases hq q (hpp ▸ hqn) with h | h | ⟨j2, hj2L, hlk2, hle⟩
      · exact absurd h hqo
      · exact absurd h hqc
      · have hjj : j2 = j := by
          rw [hlk2] at hlkq
          exact Option.some.inj hlkq
        have hlkp' : lookupPos st2.all_nodes p = some i := by rw [← hpp]; exact hlkp
        have hcidreg : lookupPos st2.all_nodes p = some cid := by
          rw [← hpos]
          exact hInv.store_reg cid hcid
        have hic : i = cid := by
          rw [hlkp'] at hcidreg
          exact Option.some.inj hcidreg
        rw [hic, ← hjj]
        exact hle
    · exact hInv.gbound p' i q j hp' (by simp [hpp]) hlkp hqn hqo hqc hlkq

lemma astar_iter {grid : Grid} {obstacles : Finset SquareCoord}
    {start goal : SquareCoord} {st : AStarState} {cid : Nat} {heap1 : List Nat}
    (hInv : AStarInv grid obstacles start goal st)
    (hpop : heappop st.store st.heap = some (cid, heap1))
    (hgoal : (st.store.getD cid default).position ≠ goal) :
    AStarInv grid obstacles start goal
      ((grid.get_neighbors (st.store.getD cid default).position).foldl
        (expandNeighbor obstacles goal cid)
        { st with heap := heap1, closed := insert (st.store.getD cid default).position st.closed })
    ∧ ((grid.get_neighbors (st.store.getD cid default).position).foldl
        (expandNeighbor obstacles goal cid)
        { st with heap := heap1, closed := insert (st.store.getD cid default).position st.closed }).closed
        = insert (st.store.getD cid default).position st.closed
    ∧ ((grid.get_neighbors (st.store.getD cid default).position).foldl
        (expandNeighbor obstacles goal cid)
        { st with heap := heap1, closed := insert (st.store.getD cid default).position st.closed }).heap.length
        ≤ heap1.length + 4
    ∧ (∀ p' i, lookupPos st.all_nodes p' = some i →
        lookupPos ((grid.get_neighbors (st.store.getD cid default).position).foldl
          (expandNeighbor obstacles goal cid)
          { st with heap := heap1, closed := insert (st.store.getD cid default).position st.closed }).all_nodes p'
          = some i)
    ∧ (∀ x ∈ heap1, x ∈ ((grid.get_neighbors (st.store.getD cid default).position).foldl
        (expandNeighbor obstacles goal cid)
        { st with heap := heap1, closed := insert (st.store.getD cid default).position st.closed }).heap) := by
  obtain ⟨hI1, hcidL⟩ := close_step hInv hpop hgoal
  obtain ⟨hI2, hF2, hL2, hQ2⟩ := expand_fold (grid.get_neighbors
      (st.store.getD cid default).position)
    { st with heap := heap1, closed := insert (st.store.getD cid default).position st.closed }
    hI1 hcidL (Finset.mem_insert_self _ _) (fun z hz => hz)
  have hpos2 : (((grid.get_neighbors (st.store.getD cid default).position).foldl
      (expandNeighbor obstacles goal cid)
      { st with heap := heap1, closed := insert (st.store.getD cid default).position st.closed }).store.getD
        cid default).position = (st.store.getD cid default).position :=
    hF2.pos_stable cid hcidL
  refine ⟨close_finish hI2 (lt_of_lt_of_le hcidL hF2.store_len) hpos2 ?_, ?_, ?_, ?_, ?_⟩
  · intro q hqn
    exact hQ2 q hqn
  · rw [hF2.closed_eq]
  · have h4 := get_neighbors_length_le grid (st.store.getD cid default).position
    have hceq : ({ st with heap := heap1, closed := insert (st.store.getD cid default).position st.closed } : AStarState).heap.length = heap1.length := rfl
    omega
  · intro p' i h
    exact hF2.nodes_stable p' i h
  · intro x hx
    exact hF2.heap_keep x hx


/-! ### Path reconstruction -/

lemma stepsOk_iff_chain (l : List SquareCoord) :
    stepsOk l = true ↔ List.Chain' (fun a b => PathFinder._heuristic a b = 1) l := by
  induction l with
  | nil => simp [stepsOk]
  | cons a tl ih =>
    cases tl with
    | nil => simp [stepsOk]
    | cons b tl2 =>
      rw [show stepsOk (a :: b :: tl2)
          = (decide (PathFinder._heuristic a b = 1) && stepsOk (b :: tl2)) from rfl,
        List.chain'_cons, ← ih, Bool.and_eq_true, decide_eq_true_eq]

lemma reconstructAux_sound {grid : Grid} {obstacles : Finset SquareCoord}
    {start goal : SquareCoord} {pend : Finset SquareCoord} {st : AStarState}
    (hInv : AStarInvP grid obstacles start goal pend st) :
    ∀ fuel i l, i < st.store.length → reconstructAux st.store fuel i = some l →
      l ≠ [] ∧ l.head? = some (st.store.getD i default).position ∧
      l.getLast? = some start ∧
      (∀ c ∈ l, grid.is_valid_position c = true ∧ c ∉ obstacles) ∧
      List.Chain' (fun a b => a ∈ grid.get_neighbors b) l := by
  intro fuel
  induction fuel with
  | zero =>
    intro i l _ h
    exact absurd h (by simp [reconstructAux])
  | succ n ih =>
    intro i l hi h
    simp only [reconstructAux] at h
    cases hpar : (st.store.getD i default).parent with
    | none =>
      rw [hpar] at h
      have hl : [(st.store.getD i default).position] = l := Option.some.inj h
      subst hl
      obtain ⟨hps, _⟩ := hInv.root_ok i hi hpar
      refine ⟨by simp, rfl, ?_, ?_, ?_⟩
      · rw [show ([(st.store.getD i default).position].getLast?)
            = some (st.store.getD i default).position from rfl, hps]
      · intro c hc
        rw [List.mem_singleton] at hc
        subst hc
        exact ⟨inv_pos_valid hInv i hi, inv_pos_free hInv i hi⟩
      · simp
    | some j =>
      rw [hpar] at h
      dsimp only at h
      obtain ⟨hjL, hg, hadj, hobs, hcl⟩ := hInv.parent_ok i hi j hpar
      cases hrec : reconstructAux st.store n j with
      | none =>
        rw [hrec] at h
        exact absurd h (by simp)
      | some rest =>
        rw [hrec] at h
        have hl : (st.store.getD i default).position :: rest = l := by
          simpa using h
        subst hl
        obtain ⟨hne, hhead, hlast, hmem, hchain⟩ := ih j rest hjL hrec
        refine ⟨by simp, rfl, ?_, ?_, ?_⟩
        · cases rest with
          | nil => exact absurd rfl hne
          | cons r rs =>
            rw [List.getLast?_cons_cons]
            exact hlast
        · intro c hc
          rcases List.mem_cons.mp hc with rfl | hc2
          · exact ⟨inv_pos_valid hInv i hi, hobs⟩
          · exact hmem c hc2
        · rw [List.chain'_cons']
          refine ⟨?_, hchain⟩
          intro y hy
          rw [hhead] at hy
          have : (st.store.getD j default).position = y := Option.some.inj hy
          rw [← this]
          exact hadj
  
lemma reconstructAux_some {grid : Grid} {obstacles : Finset SquareCoord}
    {start goal : SquareCoord} {pend : Finset SquareCoord} {st : AStarState}
    (hInv : AStarInvP grid obstacles start goal pend st) :
    ∀ (fuel : Nat) (i : Nat), i < st.store.length →
      (st.store.getD i default).g_cost < (fuel : Int) →
      ∃ l, reconstructAux st.store fuel i = some l := by
  intro fuel
  induction fuel with
  | zero =>
    intro i hi hg
    have := hInv.g_nonneg i hi
    have hz : ((0 : Nat) : Int) = 0 := rfl
    rw [hz] at hg
    omega
  | succ n ih =>
    intro i hi hg
    cases hpar : (st.store.getD i default).parent with
    | none =>
      refine ⟨[(st.store.getD i default).position], ?_⟩
      simp only [reconstructAux]
      rw [hpar]
    | some j =>
      obtain ⟨hjL, hgl, _, _, _⟩ := hInv.parent_ok i hi j hpar
      obtain ⟨l, hl⟩ := ih j hjL (by push_cast at hg ⊢; omega)
      refine ⟨(st.store.getD i default).position :: l, ?_⟩
      simp only [reconstructAux]
      rw [hpar]
      dsimp only
      rw [hl]
      rfl

lemma reconstruct_path_sound {grid : Grid} {obstacles : Finset SquareCoord}
    {start goal : SquareCoord} {pend : Finset SquareCoord} {st : AStarState}
    {i fuel : Nat} {p : List SquareCoord}
    (hInv : AStarInvP grid obstacles start goal pend st)
    (hi : i < st.store.length)
    (hgp : (st.store.getD i default).position = goal)
    (h : PathFinder._reconstruct_path st.store fuel i = some p) :
    isPath grid obstacles p start goal = true := by
  unfold PathFinder._reconstruct_path at h
  cases hrec : reconstructAux st.store fuel i with
  | none =>
    rw [hrec] at h
    exact absurd h (by simp)
  | some l =>
    rw [hrec] at h
    have hp : p = l.reverse := by
      have := Option.some.inj h
      rw [← this]
    obtain ⟨hne, hhead, hlast, hmem, hchain⟩ := reconstructAux_sound hInv fuel i l hi hrec
    subst hp
    unfold isPath
    rw [Bool.and_eq_true, Bool.and_eq_true, Bool.and_eq_true]
    refine ⟨⟨⟨?_, ?_⟩, ?_⟩, ?_⟩
    · have hrev_ne : l.reverse ≠ [] := by simpa using hne
      split
      · next heq => exact absurd heq hrev_ne
      · next c rest heq =>
        have hc : l.reverse.head? = some c := by rw [heq]; rfl
        rw [List.head?_reverse, hlast] at hc
        have hcs : start = c := Option.some.inj hc
        rw [← hcs]
        simp
    · rw [show (l.reverse.getLast? == some goal) = true
          ↔ l.reverse.getLast? = some goal from by simp]
      rw [List.getLast?_reverse, hhead, hgp]
    · rw [List.all_eq_true]
      intro c hc
      rw [List.mem_reverse] at hc
      obtain ⟨hv, ho⟩ := hmem c hc
      unfold validCell
      rw [Bool.and_eq_true, decide_eq_true_eq]
      exact ⟨hv, ho⟩
    · rw [stepsOk_iff_chain, List.chain'_reverse]
      refine List.Chain'.imp ?_ hchain
      intro a b hab
      show PathFinder._heuristic b a = 1
      exact ((mem_get_neighbors_iff grid b a).mp hab).2


/-! ### Spec-side path facts -/

lemma isPath_parts {grid : Grid} {obstacles : Finset SquareCoord} {p : List SquareCoord}
    {s g : SquareCoord} (h : isPath grid obstacles p s g = true) :
    p.head? = some s ∧ p.getLast? = some g ∧
      (∀ x ∈ p, validCell grid obstacles x = true) ∧ stepsOk p = true := by
  unfold isPath at h
  rw [Bool.and_eq_true, Bool.and_eq_true, Bool.and_eq_true] at h
  obtain ⟨⟨⟨h1, h2⟩, h3⟩, h4⟩ := h
  refine ⟨?_, by simpa using h2, by simpa [List.all_eq_true] using h3, h4⟩
  cases p with
  | nil => simp at h1
  | cons c rest =>
    have hcs : c = s := by simpa using h1
    rw [show (c :: rest).head? = some c from rfl, hcs]

lemma validCell_parts {grid : Grid} {obstacles : Finset SquareCoord} {c : SquareCoord}
    (h : validCell grid obstacles c = true) :
    grid.is_valid_position c = true ∧ c ∉ obstacles := by
  unfold validCell at h
  rw [Bool.and_eq_true, decide_eq_true_eq] at h
  exact h

lemma mem_of_getLast?_eq {α : Type _} {l : List α} {a : α} (h : l.getLast? = some a) :
    a ∈ l := by
  have h1 : a ∈ l.reverse.head? := by
    rw [List.head?_reverse, h]
    rfl
  have h2 := List.mem_of_mem_head? h1
  rwa [List.mem_reverse] at h2

lemma reachable_facts {grid : Grid} {obstacles : Finset SquareCoord} {s g : SquareCoord}
    (h : ReachablePath grid obstacles s g) :
    grid.is_valid_position s = true ∧ s ∉ obstacles ∧
      grid.is_valid_position g = true ∧ g ∉ obstacles := by
  obtain ⟨p, hp⟩ := h
  obtain ⟨hh, hl, hall, _⟩ := isPath_parts hp
  have hs : s ∈ p := List.mem_of_mem_head? (by rw [hh]; rfl)
  have hg : g ∈ p := mem_of_getLast?_eq hl
  obtain ⟨h1, h2⟩ := validCell_parts (hall s hs)
  obtain ⟨h3, h4⟩ := validCell_parts (hall g hg)
  exact ⟨h1, h2, h3, h4⟩

/-! ### Heap-pop edge cases and cardinality bounds -/

lemma heappop_eq_none {store : List PathNode} {heap : List Nat}
    (h : heappop store heap = none) : heap = [] := by
  rcases List.eq_nil_or_concat heap with rfl | ⟨l, a, rfl⟩
  · rfl
  · rw [List.concat_eq_append, heappop_concat] at h
    by_cases he : l.isEmpty
    · rw [if_pos he] at h
      exact absurd h (by simp)
    · rw [if_neg he] at h
      exact absurd h (by simp)

lemma closed_card_le_store {grid : Grid} {obstacles : Finset SquareCoord}
    {start goal : SquareCoord} {pend : Finset SquareCoord} {st : AStarState}
    (hInv : AStarInvP grid obstacles start goal pend st) :
    st.closed.card ≤ st.store.length := by
  have h1 : ∀ a ∈ st.closed,
      (fun p => (lookupPos st.all_nodes p).getD 0) a ∈ Finset.range st.store.length := by
    intro p hp
    obtain ⟨i, hi⟩ := hInv.closed_disc p hp
    rw [Finset.mem_range]
    show (lookupPos st.all_nodes p).getD 0 < st.store.length
    rw [hi]
    exact (hInv.lookup_ok p i hi).1
  have h2 : Set.InjOn (fun p => (lookupPos st.all_nodes p).getD 0) ↑st.closed := by
    intro p hp p' hp' he
    obtain ⟨i, hi⟩ := hInv.closed_disc p (by simpa using hp)
    obtain ⟨i', hi'⟩ := hInv.closed_disc p' (by simpa using hp')
    simp only [hi, hi', Option.getD_some] at he
    rw [← (hInv.lookup_ok p i hi).2, ← (hInv.lookup_ok p' i' hi').2, he]
  have h := @Finset.card_le_card_of_injOn SquareCoord Nat st.closed
    (Finset.range st.store.length) (fun p => (lookupPos st.all_nodes p).getD 0) h1 h2
  simpa using h

lemma closed_card_le_valid {grid : Grid} {obstacles : Finset SquareCoord}
    {start goal : SquareCoord} {pend : Finset SquareCoord} {st : AStarState}
    (hInv : AStarInvP grid obstacles start goal pend st) :
    st.closed.card ≤ (validCells grid).card := by
  refine Finset.card_le_card ?_
  intro p hp
  rw [mem_validCells]
  exact hInv.closed_valid p hp

lemma foldl_fixed {α β : Type _} (f : β → α → β) (s : β) :
    ∀ zs : List α, (∀ z ∈ zs, f s z = s) → zs.foldl f s = s := by
  intro zs
  induction zs with
  | nil => intro _; rfl
  | cons z tl ih =>
    intro h
    rw [List.foldl_cons, h z (by simp)]
    exact ih (fun z' hz' => h z' (by simp [hz']))


/-! ### The initial search state satisfies the invariant -/

lemma astar_init_inv {grid : Grid} {obstacles : Finset SquareCoord} {start goal : SquareCoord}
    (hvs : grid.is_valid_position start = true) (hso : start ∉ obstacles) :
    AStarInv grid obstacles start goal
      { store := [⟨start, 0, PathFinder._heuristic start goal,
          0 + PathFinder._heuristic start goal, none⟩]
        heap := heappush [⟨start, 0, PathFinder._heuristic start goal,
          0 + PathFinder._heuristic start goal, none⟩] [] 0
        closed := ∅
        all_nodes := [(start, 0)] } := by
  have hheap : heappush [(⟨start, 0, PathFinder._heuristic start goal,
      0 + PathFinder._heuristic start goal, none⟩ : PathNode)] [] 0 = [0] := rfl
  have hlk : ∀ p i, lookupPos [(start, 0)] p = some i → p = start ∧ i = 0 := by
    intro p i h
    unfold lookupPos at h
    by_cases hp : start = p
    · rw [List.find?_cons_of_pos _ (by simpa using hp)] at h
      refine ⟨hp.symm, ?_⟩
      have : some 0 = some i := h
      exact (Option.some.inj this).symm
    · rw [List.find?_cons_of_neg _ (by simpa using hp)] at h
      exact absurd h (by simp)
  refine ⟨hvs, hso, ?_, ?_, ?_, ?_, ?_, ?_, ?_, ?_, ?_, ?_, ?_, ?_, ?_, ?_, ?_⟩
  · -- root_ok
    intro i hi _
    have : i = 0 := by simpa using Nat.lt_one_iff.mp hi
    subst this
    exact ⟨rfl, rfl⟩
  · -- parent_ok
    intro i hi j hpar
    have : i = 0 := by simpa using Nat.lt_one_iff.mp hi
    subst this
    exact absurd hpar (by simp)
  · -- lookup_ok
    intro p i h
    obtain ⟨rfl, rfl⟩ := hlk p i h
    exact ⟨by simp, rfl⟩
  · -- store_reg
    intro i hi
    have : i = 0 := by simpa using Nat.lt_one_iff.mp hi
    subst this
    simp [lookupPos]
  · -- heap_bound
    intro x hx
    rw [hheap] at hx
    rw [List.mem_singleton] at hx
    subst hx
    simp
  · -- open_entry
    intro p i h _
    obtain ⟨rfl, rfl⟩ := hlk p i h
    rw [hheap]
    simp
  · -- closed_nbrs
    intro p hp
    exact absurd hp (Finset.not_mem_empty p)
  · -- closed_disc
    intro p hp
    exact absurd hp (Finset.not_mem_empty p)
  · -- closed_valid
    intro p hp
    exact absurd hp (Finset.not_mem_empty p)
  · -- gbound
    intro p i q j hp
    exact absurd hp (Finset.not_mem_empty p)
  · -- goal_open
    exact Finset.not_mem_empty goal
  · -- start_disc
    intro h
    rw [show lookupPos [(start, 0)] start = some 0 from by simp [lookupPos]] at h
    exact absurd h (by simp)
  · -- g_nonneg
    intro i hi
    have : i = 0 := by simpa using Nat.lt_one_iff.mp hi
    subst this
    simp
  · -- g_card
    intro i hi
    have : i = 0 := by simpa using Nat.lt_one_iff.mp hi
    subst this
    simp
  · -- g_card_closed
    intro i hi hic
    exact absurd hic (Finset.not_mem_empty _)

lemma astar_init_inv_state {grid : Grid} {obstacles : Finset SquareCoord}
    {start goal : SquareCoord}
    (hvs : grid.is_valid_position start = true) (hso : start ∉ obstacles) :
    AStarInv grid obstacles start goal (astarInitState start goal) :=
  astar_init_inv hvs hso

lemma astarInitState_heap (start goal : SquareCoord) :
    (astarInitState start goal).heap = [0] := rfl


/-! ### The A* main loop: soundness, exhaustion, termination -/

lemma astarLoop_sound {grid : Grid} {obstacles : Finset SquareCoord}
    {start goal : SquareCoord} :
    ∀ (fuel : Nat) (st : AStarState) (p : List SquareCoord),
      AStarInv grid obstacles start goal st →
      astarLoop grid obstacles goal fuel st = some (some p) →
      isPath grid obstacles p start goal = true := by
  intro fuel
  induction fuel with
  | zero =>
    intro st p _ h
    exact absurd h (by simp [astarLoop])
  | succ n ih =>
    intro st p hInv h
    simp only [astarLoop] at h
    cases hpop : heappop st.store st.heap with
    | none =>
      rw [hpop] at h
      exact absurd h (by simp)
    | some pr =>
      obtain ⟨cid, heap1⟩ := pr
      rw [hpop] at h
      dsimp only at h
      by_cases hg : (st.store.getD cid default).position = goal
      · rw [if_pos hg] at h
        cases hrc : PathFinder._reconstruct_path st.store (st.store.length + 1) cid with
        | none =>
          rw [hrc] at h
          exact absurd h (by simp)
        | some p2 =>
          rw [hrc] at h
          have hp2 : p2 = p := by simpa using h
          subst hp2
          have hcidL : cid < st.store.length := hInv.heap_bound cid (heappop_mem_fst hpop)
          exact reconstruct_path_sound hInv hcidL hg hrc
      · rw [if_neg hg] at h
        obtain ⟨hI2, _, _, _, _⟩ := astar_iter hInv hpop hg
        exact ih _ p hI2 h

lemma astarLoop_none {grid : Grid} {obstacles : Finset SquareCoord}
    {start goal : SquareCoord} :
    ∀ (fuel : Nat) (st : AStarState),
      AStarInv grid obstacles start goal st →
      (start ∈ st.closed ∨ st.heap ≠ []) →
      astarLoop grid obstacles goal fuel st = some none →
      ¬ ReachablePath grid obstacles start goal := by
  intro fuel
  induction fuel with
  | zero =>
    intro st _ _ h
    exact absurd h (by simp [astarLoop])
  | succ n ih =>
    intro st hInv hD h
    simp only [astarLoop] at h
    cases hpop : heappop st.store st.heap with
    | none =>
      rw [hpop] at h
      have hnil : st.heap = [] := heappop_eq_none hpop
      have hsc : start ∈ st.closed := by
        rcases hD with h1 | h2
        · exact h1
        · exact absurd hnil h2
      have hclosed_step : ∀ c q, c ∈ st.closed → q ∈ grid.get_neighbors c →
          q ∉ obstacles → q ∈ st.closed := by
        intro c q hc hqn hqo
        obtain ⟨j, hj⟩ := hInv.closed_nbrs c hc (Finset.not_mem_empty c) q hqn hqo
        by_contra hqc
        have hmem := hInv.open_entry q j hj hqc
        rw [hnil] at hmem
        exact absurd hmem (by simp)
      intro hreach
      obtain ⟨pl, hpl⟩ := hreach
      obtain ⟨hh, hl, hall, hsteps⟩ := isPath_parts hpl
      have key : ∀ l : List SquareCoord, stepsOk l = true →
          (∀ x ∈ l, validCell grid obstacles x = true) →
          ∀ c, l.head? = some c → c ∈ st.closed →
          ∀ z, l.getLast? = some z → z ∈ st.closed := by
        intro l
        induction l with
        | nil =>
          intro _ _ c _ _ z hz
          exact absurd hz (by simp)
        | cons a tl ih2 =>
          intro hstepsl hvalid c hc hcc z hz
          have ha : a = c := by simpa using hc
          subst ha
          cases tl with
          | nil =>
            have : a = z := by simpa using hz
            rw [← this]
            exact hcc
          | cons b tl2 =>
            rw [show stepsOk (a :: b :: tl2)
                = (decide (PathFinder._heuristic a b = 1) && stepsOk (b :: tl2)) from rfl,
              Bool.and_eq_true, decide_eq_true_eq] at hstepsl
            obtain ⟨hab, hrest⟩ := hstepsl
            obtain ⟨hbv, hbo⟩ := validCell_parts (hvalid b (by simp))
            have hbn : b ∈ grid.get_neighbors a :=
              (mem_get_neighbors_iff grid a b).mpr ⟨hbv, hab⟩
            have hbc : b ∈ st.closed := hclosed_step a b hcc hbn hbo
            refine ih2 hrest (fun x hx => hvalid x (by simp [hx])) b rfl hbc z ?_
            rw [← List.getLast?_cons_cons]
            exact hz
      have hgc : goal ∈ st.closed := key pl hsteps hall start hh hsc goal hl
      exact hInv.goal_open hgc
    | some pr =>
      obtain ⟨cid, heap1⟩ := pr
      rw [hpop] at h
      dsimp only at h
      by_cases hg : (st.store.getD cid default).position = goal
      · rw [if_pos hg] at h
        cases hrc : PathFinder._reconstruct_path st.store (st.store.length + 1) cid with
        | none =>
          rw [hrc] at h
          exact absurd h (by simp)
        | some p2 =>
          rw [hrc] at h
          exact absurd h (by simp)
      · rw [if_neg hg] at h
        obtain ⟨hI2, hclosed2, _, _, hkeep2⟩ := astar_iter hInv hpop hg
        refine ih _ hI2 ?_ h
        rcases hD with hsc | _
        · left
          rw [hclosed2]
          exact Finset.mem_insert_of_mem hsc
        · by_cases hstart_closed : start ∈ st.closed
          · left
            rw [hclosed2]
            exact Finset.mem_insert_of_mem hstart_closed
          · cases hlk0 : lookupPos st.all_nodes start with
            | none => exact absurd hlk0 hInv.start_disc
            | some i0 =>
              have hi0 : i0 ∈ st.heap := hInv.open_entry start i0 hlk0 hstart_closed
              by_cases hicid : i0 = cid
              · left
                rw [hclosed2]
                have hps : (st.store.getD cid default).position = start := by
                  rw [← hicid]
                  exact (hInv.lookup_ok start i0 hlk0).2
                rw [hps]
                exact Finset.mem_insert_self _ _
              · right
                have h1 : i0 ∈ heap1 := heappop_mem_of_ne hpop hi0 hicid
                exact List.ne_nil_of_mem (hkeep2 i0 h1)

lemma astarLoop_terminates {grid : Grid} {obstacles : Finset SquareCoord}
    {start goal : SquareCoord} :
    ∀ (B : Nat) (st : AStarState),
      AStarInv grid obstacles start goal st → astarPhi grid st < B →
      astarLoop grid obstacles goal B st ≠ none := by
  intro B
  induction B with
  | zero =>
    intro st _ hB
    exact absurd hB (by simp)
  | succ n ih =>
    intro st hInv hB h
    simp only [astarLoop] at h
    cases hpop : heappop st.store st.heap with
    | none =>
      rw [hpop] at h
      exact absurd h (by simp)
    | some pr =>
      obtain ⟨cid, heap1⟩ := pr
      rw [hpop] at h
      dsimp only at h
      have hcidL : cid < st.store.length := hInv.heap_bound cid (heappop_mem_fst hpop)
      by_cases hg : (st.store.getD cid default).position = goal
      · rw [if_pos hg] at h
        have hcard := closed_card_le_store hInv
        have hgle := hInv.g_card cid hcidL
        obtain ⟨l, hl⟩ := reconstructAux_some hInv (st.store.length + 1) cid hcidL
          (by push_cast; omega)
        rw [show PathFinder._reconstruct_path st.store (st.store.length + 1) cid
            = some l.reverse from by unfold PathFinder._reconstruct_path; rw [hl]; rfl] at h
        exact absurd h (by simp)
      · rw [if_neg hg] at h
        obtain ⟨hI2, hclosed2, hlen2, _, _⟩ := astar_iter hInv hpop hg
        have hpoplen : st.heap.length = heap1.length + 1 := (heappop_some hpop).2
        by_cases hpc : (st.store.getD cid default).position ∈ st.closed
        · -- already-closed pop: the neighbour loop is a no-op
          have hnoop : (grid.get_neighbors (st.store.getD cid default).position).foldl
              (expandNeighbor obstacles goal cid)
              { st with heap := heap1, closed := insert (st.store.getD cid default).position st.closed }
              = { st with heap := heap1, closed := insert (st.store.getD cid default).position st.closed } := by
            apply foldl_fixed
            intro z hz
            by_cases hzskip : z ∈ ({ st with heap := heap1, closed := insert (st.store.getD cid default).position st.closed }
                  : AStarState).closed ∨ z ∈ obstacles
            · exact expandNeighbor_skip hzskip
            · have hzc : z ∉ st.closed := by
                intro hc
                exact hzskip (Or.inl (Finset.mem_insert_of_mem hc))
              have hzo : z ∉ obstacles := fun hc => hzskip (Or.inr hc)
              obtain ⟨nid, hnid⟩ := hInv.closed_nbrs _ hpc (Finset.not_mem_empty _) z hz hzo
              have hrel := hInv.gbound _ cid z nid hpc (Finset.not_mem_empty _)
                (hInv.store_reg cid hcidL) hz hzo hzc hnid
              refine expandNeighbor_norelax hzskip hnid ?_
              show ¬ (st.store.getD cid default).g_cost + 1
                  < (st.store.getD nid default).g_cost
              omega
          rw [hnoop] at h
          refine ih _ (by rw [← hnoop]; exact hI2) ?_ h
          unfold astarPhi at hB ⊢
          have hceq : (insert (st.store.getD cid default).position st.closed) = st.closed :=
            Finset.insert_eq_self.mpr hpc
          have hsimp : ({ st with heap := heap1, closed := insert (st.store.getD cid default).position st.closed }
                : AStarState).heap.length = heap1.length := rfl
          rw [hsimp]
          have hsimp2 : ({ st with heap := heap1, closed := insert (st.store.getD cid default).position st.closed }
                : AStarState).closed.card = st.closed.card := by
            show (insert (st.store.getD cid default).position st.closed).card = st.closed.card
            rw [hceq]
          rw [hsimp2]
          omega
        · -- a genuinely new cell is closed
          refine ih _ hI2 ?_ h
          unfold astarPhi at hB ⊢
          have hV := closed_card_le_valid hI2
          have hc2 : ((grid.get_neighbors (st.store.getD cid default).position).foldl
              (expandNeighbor obstacles goal cid)
              { st with heap := heap1, closed := insert (st.store.getD cid default).position st.closed }).closed.card
              = st.closed.card + 1 := by
            rw [hclosed2]
            exact Finset.card_insert_of_not_mem hpc
          rw [hc2] at hV ⊢
          omega


/-! ### `find_path_astar`: guards and top-level behaviour -/

lemma find_path_invalid {grid : Grid} {start goal : SquareCoord}
    {obstacles : Finset SquareCoord} {fuel : Nat}
    (h : ¬ grid.is_valid_position start = true ∨ ¬ grid.is_valid_position goal = true ∨
      start ∈ obstacles ∨ goal ∈ obstacles) :
    PathFinder.find_path_astar grid start goal obstacles fuel = some none := by
  unfold PathFinder.find_path_astar
  by_cases h1 : ¬ grid.is_valid_position start ∨ ¬ grid.is_valid_position goal
  · rw [if_pos h1]
  · rw [if_neg h1]
    have h2 : start ∈ obstacles ∨ goal ∈ obstacles := by
      rcases h with hx | hx | hx | hx
      · exact absurd (Or.inl hx) h1
      · exact absurd (Or.inr hx) h1
      · exact Or.inl hx
      · exact Or.inr hx
    rw [if_pos h2]

lemma find_path_valid_eq {grid : Grid} {start goal : SquareCoord}
    {obstacles : Finset SquareCoord} {fuel : Nat}
    (hvs : grid.is_valid_position start = true) (hvg : grid.is_valid_position goal = true)
    (hso : start ∉ obstacles) (hgo : goal ∉ obstacles) :
    PathFinder.find_path_astar grid start goal obstacles fuel =
      astarLoop grid obstacles goal fuel (astarInitState start goal) := by
  unfold astarInitState
  unfold PathFinder.find_path_astar
  rw [if_neg (show ¬(¬ grid.is_valid_position start ∨ ¬ grid.is_valid_position goal) from
      by simp [hvs, hvg]),
    if_neg (show ¬(start ∈ obstacles ∨ goal ∈ obstacles) from not_or.mpr ⟨hso, hgo⟩)]

/-- C1, amended: for every grid, obstacle set, start and goal,
`find_path_astar` (1) returns `None` whenever start or goal is out of
bounds or obstructed, (2) only ever returns paths that run from start to
goal inclusive over in-bounds non-obstacle cells with grid-adjacent
consecutive cells, (3) returns `None` only when the goal is unreachable
on the filtered graph, (4) returns such a path, with enough loop fuel,
whenever the goal is reachable, and (5) returns `None`, with enough loop
fuel, whenever it is not. The original claim's optimality clause (path
length equals the BFS distance) is dropped: `c1_counterexample` refutes
it. -/
theorem c1_astar_amended (grid : Grid) (obstacles : Finset SquareCoord)
    (start goal : SquareCoord) :
    ((¬ grid.is_valid_position start = true ∨ ¬ grid.is_valid_position goal = true ∨
        start ∈ obstacles ∨ goal ∈ obstacles) →
      ∀ fuel, PathFinder.find_path_astar grid start goal obstacles fuel = some none) ∧
    (∀ fuel p, PathFinder.find_path_astar grid start goal obstacles fuel = some (some p) →
      isPath grid obstacles p start goal = true) ∧
    (∀ fuel, PathFinder.find_path_astar grid start goal obstacles fuel = some none →
      ¬ ReachablePath grid obstacles start goal) ∧
    (ReachablePath grid obstacles start goal →
      ∃ fuel p, PathFinder.find_path_astar grid start goal obstacles fuel = some (some p) ∧
        isPath grid obstacles p start goal = true) ∧
    (¬ ReachablePath grid obstacles start goal →
      ∃ fuel, PathFinder.find_path_astar grid start goal obstacles fuel = some none) := by
  have part1 : (¬ grid.is_valid_position start = true ∨ ¬ grid.is_valid_position goal = true ∨
      start ∈ obstacles ∨ goal ∈ obstacles) →
      ∀ fuel, PathFinder.find_path_astar grid start goal obstacles fuel = some none :=
    fun h fuel => find_path_invalid h
  refine ⟨part1, ?_, ?_, ?_, ?_⟩
  · -- soundness of any returned path
    intro fuel p h
    by_cases hvs : grid.is_valid_position start = true
    · by_cases hvg : grid.is_valid_position goal = true
      · by_cases hso : start ∈ obstacles
        · rw [part1 (Or.inr (Or.inr (Or.inl hso))) fuel] at h
          exact absurd h (by simp)
        · by_cases hgo : goal ∈ obstacles
          · rw [part1 (Or.inr (Or.inr (Or.inr hgo))) fuel] at h
            exact absurd h (by simp)
          · rw [find_path_valid_eq hvs hvg hso hgo] at h
            exact astarLoop_sound fuel _ p (astar_init_inv hvs hso) h
      · rw [part1 (Or.inr (Or.inl hvg)) fuel] at h
        exact absurd h (by simp)
    · rw [part1 (Or.inl hvs) fuel] at h
      exact absurd h (by simp)
  · -- a `None` return means the goal is unreachable
    intro fuel h hreach
    obtain ⟨hvs, hso, hvg, hgo⟩ := reachable_facts hreach
    rw [find_path_valid_eq hvs hvg hso hgo] at h
    exact astarLoop_none fuel _ (astar_init_inv_state hvs hso)
      (Or.inr (by rw [astarInitState_heap]; simp)) h hreach
  · -- a reachable goal is found with enough fuel
    intro hreach
    obtain ⟨hvs, hso, hvg, hgo⟩ := reachable_facts hreach
    have hinv : AStarInv grid obstacles start goal (astarInitState start goal) :=
      astar_init_inv_state hvs hso
    cases hres : astarLoop grid obstacles goal
        (astarPhi grid (astarInitState start goal) + 1) (astarInitState start goal) with
    | none =>
      exact absurd hres (astarLoop_terminates _ _ hinv (Nat.lt_succ_self _))
    | some r =>
      cases r with
      | none =>
        exact absurd hreach (astarLoop_none _ _ hinv
          (Or.inr (by rw [astarInitState_heap]; simp)) hres)
      | some p =>
        refine ⟨astarPhi grid (astarInitState start goal) + 1, p, ?_,
          astarLoop_sound _ _ p hinv hres⟩
        rw [find_path_valid_eq hvs hvg hso hgo]
        exact hres
  · -- an unreachable goal yields a `None` return with enough fuel
    intro hunreach
    by_cases hvs : grid.is_valid_position start = true
    · by_cases hvg : grid.is_valid_position goal = true
      · by_cases hso : start ∈ obstacles
        · exact ⟨0, part1 (Or.inr (Or.inr (Or.inl hso))) 0⟩
        · by_cases hgo : goal ∈ obstacles
          · exact ⟨0, part1 (Or.inr (Or.inr (Or.inr hgo))) 0⟩
          · have hinv : AStarInv grid obstacles start goal (astarInitState start goal) :=
              astar_init_inv_state hvs hso
            cases hres : astarLoop grid obstacles goal
                (astarPhi grid (astarInitState start goal) + 1)
                (astarInitState start goal) with
            | none =>
              exact absurd hres (astarLoop_terminates _ _ hinv (Nat.lt_succ_self _))
            | some r =>
              cases r with
              | none =>
                refine ⟨astarPhi grid (astarInitState start goal) + 1, ?_⟩
                rw [find_path_valid_eq hvs hvg hso hgo]
                exact hres
              | some p =>
                have hpath := astarLoop_sound _ _ p hinv hres
                exact absurd ⟨p, hpath⟩ hunreach
      · exact ⟨0, part1 (Or.inr (Or.inl hvg)) 0⟩
    · exact ⟨0, part1 (Or.inl hvs) 0⟩

/-- Witness for C1: the reachable-goal clause of the amended theorem at a
concrete instance, with reachability discharged by an explicit path. -/
theorem c1_witness :
    ∃ fuel p, PathFinder.find_path_astar ⟨3, 3, ∅⟩ ⟨0, 0⟩ ⟨2, 0⟩ ∅ fuel = some (some p) ∧
      isPath ⟨3, 3, ∅⟩ ∅ p ⟨0, 0⟩ ⟨2, 0⟩ = true :=
  (c1_astar_amended ⟨3, 3, ∅⟩ ∅ ⟨0, 0⟩ ⟨2, 0⟩).2.2.2.1
    ⟨[⟨0, 0⟩, ⟨1, 0⟩, ⟨2, 0⟩], by decide⟩

end SnakeGame
